import Mathlib

/-!
Verification development for the Swiss energy data importer
(`ch-energy/bin/import_data.py`, `ch-energy/bin/import_production_data.py`,
`ch-energy/bin/merge.py`, `ch-renewables/util/merge.py`).

Shallow embedding conventions:
* Python numbers (`int` / `float`) are modelled as `Int` / `ℚ` (exact
  rational arithmetic stands in for IEEE doubles; no claim below depends on
  rounding).
* Python `None` is `Value.vNone`; a translated cell is a `Value`.
* A raised Python exception is `Except.error` with a short message naming
  the exception.
* Python `dict(zip(keys, values))` followed by `d[k]` is modelled by
  `pyDictGet` (last writer wins) on the zipped association list.
* The Nominatim HTTP endpoint is an external collaborator and is modelled
  as an oracle `Nat → Except Unit (Option (ℚ × ℚ))` indexed by the number
  of requests issued so far: `.error` models a timeout or an error status
  raised by `raise_for_status`, `.ok none` models an empty result list,
  `.ok (some (lat, lon))` models a first result carrying `lat`/`lon`.
* The `pyproj` LV95→WGS84 transformer is an external library; it enters
  the model as an explicit function parameter `tf : ℚ → ℚ → ℚ × ℚ`.
* Only ASCII digits and whitespace are modelled for `str.isdigit` /
  `str.strip`; the data of interest is ASCII.
-/

/-! ### Basic Python string helpers (character-list level) -/

/-- Characters removed by Python `str.strip()` (whitespace). -/
def pySpace (c : Char) : Bool :=
  c = ' ' || c = '\t' || c = '\n' || c = '\r' || c = '\x0b' || c = '\x0c'

/-- Python `str.strip()` on a character list. -/
def stripChars (l : List Char) : List Char :=
  ((l.dropWhile pySpace).reverse.dropWhile pySpace).reverse

/-- Python `str.strip()`. -/
def pyStrip (s : String) : String := String.mk (stripChars s.toList)

/-- Python `value.replace('.', '')`: remove every dot. -/
def stripDots (s : String) : String := String.mk (s.toList.filter (fun c => !(c = '.')))

/-- Python `str.isdigit()` (ASCII digits): nonempty and all digits. -/
def pyIsDigit (s : String) : Bool :=
  !s.toList.isEmpty && s.toList.all Char.isDigit

/-- Whether the needle occurs as a contiguous run at the front of the haystack. -/
def startsWithChars : List Char → List Char → Bool
  | [], _ => true
  | _ :: _, [] => false
  | a :: as, b :: bs => a = b && startsWithChars as bs

/-- Python `needle in haystack` on strings (substring test). -/
def containsSubChars (needle : List Char) : List Char → Bool
  | [] => startsWithChars needle []
  | c :: cs => startsWithChars needle (c :: cs) || containsSubChars needle cs

/-- Python substring membership `needle in hay`. -/
def containsSub (needle hay : String) : Bool :=
  containsSubChars needle.toList hay.toList

/-- Split a character list at every occurrence of `c` (like `str.split(c)`). -/
def splitChar (c : Char) : List Char → List (List Char)
  | [] => [[]]
  | x :: xs =>
    let r := splitChar c xs
    if x = c then [] :: r
    else
      match r with
      | [] => [[x]]
      | h :: t => (x :: h) :: t

/-- Numeric value of an ASCII digit list (e.g. `['4','2'] ↦ 42`). -/
def natOfDigits (l : List Char) : Nat :=
  l.foldl (fun n c => 10 * n + (c.toNat - '0'.toNat)) 0

/-! ### Typed cell values -/

/-- A translated CSV cell: Python `str`, `int`, `float` or `None`. -/
inductive Value where
  | vStr (s : String)
  | vInt (n : Int)
  | vFloat (q : ℚ)
  | vNone
  deriving DecidableEq, Repr

/-- Python `isinstance(v, (int, float))`. -/
def isNumValue : Value → Bool
  | .vInt _ => true
  | .vFloat _ => true
  | _ => false

/-- Python `isinstance(v, int)`. -/
def isIntValue : Value → Bool
  | .vInt _ => true
  | _ => false

/-- Whether a value is Python `None`. -/
def isNoneV : Value → Bool
  | .vNone => true
  | _ => false

/-- Numeric content of a numeric value (unused constructors map to 0). -/
def valueRat : Value → ℚ
  | .vInt n => (n : ℚ)
  | .vFloat q => q
  | _ => 0

/-- Python truthiness of a cell value. -/
def pyTruthy : Value → Bool
  | .vStr s => !(s = "")
  | .vInt n => !(n = 0)
  | .vFloat q => !(q = 0)
  | .vNone => false

/-- Python `str(v)` for the values that can reach the geocoder key
(rationals print as `Rat`'s representation; the claims below only need
`pyStr` to be a function of the value). -/
def pyStr : Value → String
  | .vStr s => s
  | .vInt n => toString n
  | .vFloat q => toString q
  | .vNone => "None"

/-- First-match association lookup; models a Python `dict` that is stored
with newest binding first (see `cacheSet`). -/
def assocGet {α : Type} [DecidableEq α] {β : Type} : List (α × β) → α → Option β
  | [], _ => none
  | (k, v) :: t, key => if k = key then some v else assocGet t key

/-- Lookup in an association list built in writing order (`dict(zip(ks, vs))`
followed by `d[k]`): the LAST binding of a key wins. -/
def pyDictGet : List (String × Value) → String → Option Value
  | [], _ => none
  | e :: t, k =>
    match pyDictGet t k with
    | some v => some v
    | none => if e.1 = k then some e.2 else none

instance {ε α : Type} [DecidableEq ε] [DecidableEq α] : DecidableEq (Except ε α) := by
  intro a b
  cases a <;> cases b
  case error.error e f =>
    exact if h : e = f then .isTrue (by rw [h]) else .isFalse (by intro hc; cases hc; exact h rfl)
  case error.ok e f => exact .isFalse (by intro hc; cases hc)
  case ok.error e f => exact .isFalse (by intro hc; cases hc)
  case ok.ok e f =>
    exact if h : e = f then .isTrue (by rw [h]) else .isFalse (by intro hc; cases hc; exact h rfl)

/-! ### SchemaTranslator (import_data.py lines 285-292, merge.py lines 34-41) -/

/-- Python `float(s)` for a string of digits and dots that already passed
`s.replace('.', '').isdigit()`: succeeds exactly when there is one dot.
The value `ip.fp` is the exact rational `(ip ++ fp) / 10 ^ |fp|`. -/
def parseDotFloat (s : String) : Option ℚ :=
  match splitChar '.' s.toList with
  | [ip, fp] => some (mkRat (Int.ofNat (natOfDigits (ip ++ fp))) (10 ^ fp.length))
  | _ => none

/-- Number of dots in a string. -/
def countDots (s : String) : Nat := s.toList.count '.'

/-- Whether the string contains a dot (Python `'.' in value`). -/
def containsDot (s : String) : Bool := s.toList.contains '.'

/-- One cell of the schema translation, from `import_data.py`:
```
if value in translations: values.append(translations[value])
elif value.replace('.', '').isdigit():
    values.append(float(value) if '.' in value else int(value))
else: values.append(value)
```
`.error` models the `ValueError` that `float(value)` raises when the digit
guard passed but the string has more than one dot. -/
def translateCell (tr : List (String × String)) (s : String) : Except String Value :=
  match assocGet tr s with
  | some t => .ok (.vStr t)
  | none =>
    if pyIsDigit (stripDots s) then
      if containsDot s then
        match parseDotFloat s with
        | some q => .ok (.vFloat q)
        | none => .error "ValueError"
      else .ok (.vInt (Int.ofNat (natOfDigits s.toList)))
    else .ok (.vStr s)

/-- Translate a whole data row cell by cell; the first raised exception
aborts the row (it is the caller's business whether that is caught). -/
def translateRow (tr : List (String × String)) : List String → Except String (List Value)
  | [] => .ok []
  | c :: cs =>
    match translateCell tr c with
    | .error e => .error e
    | .ok v =>
      match translateRow tr cs with
      | .error e => .error e
      | .ok vs => .ok (v :: vs)

/-! ### Geocoder (import_data.py lines 91-174)

The in-memory cache `self.cache` is a Python dict; it is modelled as an
association list where a store prepends the binding and `cacheGet` takes
the first match, so a re-store of the same key shadows the old binding
exactly as a dict assignment overwrites. -/

/-- A cached geocoding outcome: the `(lat, lon)` pair, each possibly `None`. -/
abbrev GeoPair := Option ℚ × Option ℚ

/-- The in-memory geocoding cache. -/
abbrev Cache := List (String × GeoPair)

/-- Dict read `self.cache[key]` / membership `key in self.cache`. -/
def cacheGet : Cache → String → Option GeoPair
  | [], _ => none
  | (k, v) :: t, key => if k = key then some v else cacheGet t key

/-- Dict write `self.cache[key] = pair`. -/
def cacheSet (c : Cache) (key : String) (p : GeoPair) : Cache := (key, p) :: c

/-- Geocoder state: the cache plus the number of HTTP requests issued so
far.  `requests` indexes the oracle; it counts every request attempt
(the Python `num_requests` counter, which skips failed attempts and only
drives the periodic `save()`, is not needed by any claim). -/
structure GeoState where
  cache : Cache
  requests : Nat
  deriving DecidableEq, Repr

/-- The external Nominatim endpoint, as an oracle over the request index:
`.error` is a timeout or an HTTP error status (`raise_for_status`),
`.ok none` an empty result list, `.ok (some (lat, lon))` a first result
with `lat`/`lon` present. -/
abbrev GeoOracle := Nat → Except Unit (Option (ℚ × ℚ))

/-- One component of the cache key:
`str(address_parts[f]).strip().replace('\t', ' ').replace('|', ' ')`. -/
def keyPart (v : Value) : String :=
  String.mk ((pyStrip (pyStr v)).toList.map fun c =>
    if c = '\t' || c = '|' then ' ' else c)

/-- The cache key `'|'.join(...)` over the Address/PostCode/Municipality
values. -/
def cacheKey (a p m : Value) : String :=
  keyPart a ++ "|" ++ keyPart p ++ "|" ++ keyPart m

/-- How `Geocoder.geocode` turns the parsed HTTP response into the
`(lat, lon)` pair it caches and returns: first result present with both
fields ⇒ both `some`; otherwise explicit `(None, None)`. -/
def respToPair : Option (ℚ × ℚ) → GeoPair
  | some (la, lo) => (some la, some lo)
  | none => (none, none)

/-- `Geocoder.geocode` (import_data.py lines 134-174).
Cache hit: return the cached pair, no request.  Cache miss: issue one
request; a failure (`raise_for_status` / timeout) propagates as
`.error` with the cache unchanged; a response is parsed, stored in the
cache and returned.  (The rate-limit sleep and the periodic `save()` are
side effects with no bearing on the claims.) -/
def geocode (oracle : GeoOracle) (st : GeoState) (a p m : Value) :
    GeoState × Except String GeoPair :=
  let key := cacheKey a p m
  match cacheGet st.cache key with
  | some pair => (st, .ok pair)
  | none =>
    match oracle st.requests with
    | .error _ => ({ st with requests := st.requests + 1 }, .error "HTTPError")
    | .ok resp =>
      let pair := respToPair resp
      (⟨cacheSet st.cache key pair, st.requests + 1⟩, .ok pair)

/-- Python `float(s)` for the strings stored in the cache file (an
optional minus sign followed by digits with at most one dot; this covers
everything `Geocoder.save` writes).  `none` models a `ValueError`. -/
def parseSignedDec (s : String) : Option ℚ :=
  match s.toList with
  | '-' :: rest =>
    (parseDotFloat (String.mk rest)).map Neg.neg |>.orElse fun _ =>
      if pyIsDigit (String.mk rest) then some (-mkRat (Int.ofNat (natOfDigits rest)) 1) else none
  | l =>
    (parseDotFloat s).orElse fun _ =>
      if pyIsDigit (String.mk l) then some (mkRat (Int.ofNat (natOfDigits l)) 1) else none

/-- Parse one `lat`/`lon` field of a cache line:
`float(parts[i]) if parts[i] != 'None' else None`. -/
def parseCacheField (s : String) : Except String (Option ℚ) :=
  if s = "None" then .ok none
  else
    match parseSignedDec s with
    | some q => .ok (some q)
    | none => .error "ValueError"

/-- Accumulator pass of `Geocoder.load`: lines are written into the dict
in file order, so a later line for the same key overwrites an earlier one
(`cacheSet` on the accumulator). -/
def loadCacheAux (acc : Cache) : List String → Except String Cache
  | [] => .ok acc
  | line :: rest =>
    let l := pyStrip line
    if l = "" then loadCacheAux acc rest
    else
      match splitChar '\t' l.toList with
      | [k, latS, lonS] =>
        match parseCacheField (String.mk latS) with
        | .error e => .error e
        | .ok la =>
          match parseCacheField (String.mk lonS) with
          | .error e => .error e
          | .ok lo => loadCacheAux (cacheSet acc (String.mk k) (la, lo)) rest
      | _ => .error "Invalid cache entry"

/-- `Geocoder.load` (import_data.py lines 106-123) over the file's lines:
strip each line, skip blanks, split on tabs, demand exactly three fields
(else `ValueError`), parse `lat`/`lon` with `'None'` meaning null. -/
def loadCache (lines : List String) : Except String Cache :=
  loadCacheAux [] lines

/-! ### FacilityResolutionPipeline (`import_facilities`, import_data.py lines 258-331) -/

/-- The last two typed values of a translated row (`values[-2]`, `values[-1]`);
`none` when the row has fewer than two values. -/
def vLast2 (l : List Value) : Option (Value × Value) :=
  match l.reverse with
  | b :: a :: _ => some (a, b)
  | _ => none

/-- `REQUIRED_FIELDS` (import_data.py lines 81-89). -/
def REQUIRED_FIELDS : List String :=
  ["Municipality", "Canton", "BeginningOfOperation", "TotalPower", "SubCategory", "lat", "lon"]

/-- An `Option ℚ` coordinate as it is appended to the row values. -/
def optValue : Option ℚ → Value
  | some q => .vFloat q
  | none => .vNone

/-- The `address_parts` construction (lines 304-307): for each of the three
address fields, copy it when present in the row dict with a truthy value. -/
def apBuild (fields : List (String × Value)) : List String → List (String × Value)
  | [] => []
  | f :: t =>
    match pyDictGet fields f with
    | some v => if pyTruthy v then (f, v) :: apBuild fields t else apBuild fields t
    | none => apBuild fields t

/-- The geocoding fallback of `import_facilities` (lines 301-316): build
`address_parts` from the present-and-truthy fields, then evaluate
`if address_parts and address_parts['Address'] and address_parts['PostCode']
and address_parts['Municipality']`.  A non-empty partial dict makes the
guard raise `KeyError`; an empty dict short-circuits to `(None, None)`;
a full dict calls `Geocoder.geocode`. -/
def addressFallback (oracle : GeoOracle) (st : GeoState)
    (fields : List (String × Value)) : GeoState × Except String GeoPair :=
  let ap : List (String × Value) :=
    apBuild fields ["Address", "PostCode", "Municipality"]
  if ap.isEmpty then (st, .ok (none, none))
  else
    match pyDictGet ap "Address" with
    | none => (st, .error "KeyError")
    | some a =>
      if !pyTruthy a then (st, .ok (none, none))
      else
        match pyDictGet ap "PostCode" with
        | none => (st, .error "KeyError")
        | some p =>
          if !pyTruthy p then (st, .ok (none, none))
          else
            match pyDictGet ap "Municipality" with
            | none => (st, .error "KeyError")
            | some m =>
              if !pyTruthy m then (st, .ok (none, none))
              else geocode oracle st a p m

/-- The body of the per-row `try` block (lines 284-321, up to the facility
projection): translate the cells, use the trailing LV95 pair when both
values are numeric, otherwise run the geocoding fallback; the result is
the dict `dict(zip(keys, values))` of the completed row.  `.error` is any
exception raised inside the `try` (it is the loop's business to catch it). -/
def processRow (tf : ℚ → ℚ → ℚ × ℚ) (tr : List (String × String))
    (oracle : GeoOracle) (ks : List String) (st : GeoState) (row : List String) :
    GeoState × Except String (List (String × Value)) :=
  match translateRow tr row with
  | .error e => (st, .error e)
  | .ok tvs =>
    let coordOk :=
      match vLast2 tvs with
      | some (a, b) => isNumValue a && isNumValue b
      | none => false
    if coordOk then
      match vLast2 tvs with
      | some (a, b) =>
        let (la, lo) := tf (valueRat a) (valueRat b)
        (st, .ok ((ks.zip (tvs ++ [.vFloat la, .vFloat lo]))))
      | none => (st, .error "unreachable")
    else
      let fields := ks.dropLast.dropLast.zip tvs
      match addressFallback oracle st fields with
      | (st', .error e) => (st', .error e)
      | (st', .ok (ola, olo)) =>
        (st', .ok ((ks.zip (tvs ++ [optValue ola, optValue olo]))))

/-- The facility projection (line 320):
`{field: all_fields[field] for field in REQUIRED_FIELDS if field in all_fields}`. -/
def projectFacility (d : List (String × Value)) : List (String × Value) :=
  REQUIRED_FIELDS.filterMap fun f => (pyDictGet d f).map fun v => (f, v)

/-- The row loop of `import_facilities` (lines 276-324).  A header row
(first cell containing `'xtf_id'`) installs `keys = row + ['lat', 'lon']`.
An empty row raises `IndexError` at `row[0]`, outside the `try`; a data
row before any header raises `Exception` — both abort the run.  A data
row is processed inside the `try`: an exception there is logged and the
row is skipped. -/
def importLoop (tf : ℚ → ℚ → ℚ × ℚ) (tr : List (String × String))
    (oracle : GeoOracle) :
    List (List String) → Option (List String) → GeoState →
    List (List (String × Value)) →
    Except String (List (List (String × Value)) × GeoState)
  | [], _, st, acc => .ok (acc, st)
  | row :: rest, keys?, st, acc =>
    match row with
    | [] => .error "IndexError"
    | c :: _ =>
      if containsSub "xtf_id" c then
        importLoop tf tr oracle rest (some (row ++ ["lat", "lon"])) st acc
      else
        match keys? with
        | none => .error "No keys found in facilities data"
        | some ks =>
          match processRow tf tr oracle ks st row with
          | (st', .error _) => importLoop tf tr oracle rest keys? st' acc
          | (st', .ok d) =>
            importLoop tf tr oracle rest keys? st' (acc ++ [projectFacility d])

/-- `import_facilities` over the CSV rows, parameterised by the external
LV95→WGS84 transformer `tf`, the catalogue translations, the HTTP oracle
and the loaded cache (the `Geocoder` is constructed with `load()` already
run).  Returns the projected facility records and the final geocoder
state; the trailing `geocoder.save()` is a file side effect outside the
claims. -/
def importFacilities (tf : ℚ → ℚ → ℚ × ℚ) (tr : List (String × String))
    (oracle : GeoOracle) (c0 : Cache) (rows : List (List String)) :
    Except String (List (List (String × Value)) × GeoState) :=
  importLoop tf tr oracle rows none ⟨c0, 0⟩ []

/-! ### The merge scripts (ch-energy/bin/merge.py, ch-renewables/util/merge.py)

Both scripts translate a data row with the same cell logic as
`import_facilities` and then append coordinates only when the last two
typed values are both `int`:
`if isinstance(values[-2], int) and isinstance(values[-1], int)`. -/

/-- Per-row value construction of ch-energy/bin/merge.py (lines 34-45):
translate the cells, then append the transformed pair when both trailing
values are `int`, else `[None, None]`.  `values[-2]` on a row with fewer
than two cells raises `IndexError` (the script has no handler). -/
def mergeEnergyRowValues (tf : ℚ → ℚ → ℚ × ℚ) (tr : List (String × String))
    (row : List String) : Except String (List Value) :=
  match translateRow tr row with
  | .error e => .error e
  | .ok tvs =>
    match vLast2 tvs with
    | none => .error "IndexError"
    | some (a, b) =>
      if isIntValue a && isIntValue b then
        let (la, lo) := tf (valueRat a) (valueRat b)
        .ok (tvs ++ [.vFloat la, .vFloat lo])
      else .ok (tvs ++ [.vNone, .vNone])

/-- Per-row value construction of ch-renewables/util/merge.py
(lines 46-55): identical cell translation and the same `int`-only
coordinate test. -/
def mergeRenewRowValues (tf : ℚ → ℚ → ℚ × ℚ) (tr : List (String × String))
    (row : List String) : Except String (List Value) :=
  match translateRow tr row with
  | .error e => .error e
  | .ok tvs =>
    match vLast2 tvs with
    | none => .error "IndexError"
    | some (a, b) =>
      if isIntValue a && isIntValue b then
        let (la, lo) := tf (valueRat a) (valueRat b)
        .ok (tvs ++ [.vFloat la, .vFloat lo])
      else .ok (tvs ++ [.vNone, .vNone])

/-- Python `int(x)`: truncation toward zero. -/
def pyIntOf (q : ℚ) : ℤ := if 0 ≤ q then ⌊q⌋ else ⌈q⌉

/-- `to_lat_lon` (ch-renewables/util/merge.py lines 18-37), transcribed
with exact rational arithmetic in place of IEEE doubles: LV95 → LV03
shift, polynomial in the normalized easting/northing, then the script's
final `lat + 46.95, lon + 7.439583333333333` offsets. -/
def to_lat_lon (e n : ℚ) : ℚ × ℚ :=
  let y : ℚ := ((pyIntOf e - 2000000 : ℤ) : ℚ)
  let x : ℚ := ((pyIntOf n - 1000000 : ℤ) : ℚ)
  let y_aux : ℚ := (y - 600000) / 1000000
  let x_aux : ℚ := (x - 200000) / 1000000
  let lat : ℚ := 16.9023892
    + 3.238272 * x_aux
    + 0.270978 * y_aux * y_aux
    + 0.002528 * x_aux * x_aux
    + 0.0447 * y_aux * y_aux * y_aux
    + (-0.0140) * x_aux * x_aux * x_aux
  let lon : ℚ := 2.6779094
    + 4.728982 * y_aux
    + 0.791484 * x_aux * y_aux
    + 0.1306 * y_aux * y_aux * y_aux
    + (-0.0436) * x_aux * x_aux * y_aux
  (lat + 46.95, lon + 7.439583333333333)

/-! ### Production aggregation (import_data.py lines 333-368,
import_production_data.py lines 73-109)

`import_production` and `parse_csv` share the same body; `dailyData`
below is that shared aggregation.  A `DictReader` row is modelled with
its three relevant columns; `produktionGwh = none` models
`float(row['Produktion_GWh'])` raising `ValueError` (or the value being
missing), which the per-row handler skips. -/

/-- `PRODUCTION_SOURCE_INDEX` / `ENERGY_SOURCE_INDEX`. -/
def PRODUCTION_SOURCE_INDEX : List (String × Nat) :=
  [("Speicherkraft", 0), ("Flusskraft", 1), ("Kernkraft", 2),
   ("Photovoltaik", 3), ("Thermische", 4), ("Wind", 5)]

/-- One production CSV row (after `DictReader`). -/
structure ProdRow where
  datum : String
  energietraeger : String
  produktionGwh : Option ℚ
  deriving DecidableEq, Repr

/-- The `defaultdict(lambda: [0.0] * 6)` keyed by date, in insertion
order. -/
abbrev DailyTable := List (String × List ℚ)

/-- `daily_data[date][index] = value`: update the date's array in place,
creating the default `[0.0] * 6` array for a new date (appended, as dicts
keep insertion order). -/
def tableSet : DailyTable → String → Nat → ℚ → DailyTable
  | [], d, i, v => [(d, (List.replicate 6 (0 : ℚ)).set i v)]
  | (d', arr) :: t, d, i, v =>
    if d' = d then (d', arr.set i v) :: t
    else (d', arr) :: tableSet t d i v

/-- Read a date's array (dates are unique in the table by construction). -/
def tableGet : DailyTable → String → Option (List ℚ)
  | [], _ => none
  | (d', arr) :: t, d => if d' = d then some arr else tableGet t d

/-- The value recorded for a date at a source index. -/
def tableGetIdx (t : DailyTable) (d : String) (i : Nat) : Option ℚ :=
  (tableGet t d).bind fun arr => arr.get? i

/-- One row of the aggregation loop: parse the GWh value (a failure skips
the row), look the source up in the index (an unknown source is logged
and skipped), and assign the value at the source's fixed index. -/
def dailyStep (t : DailyTable) (r : ProdRow) : DailyTable :=
  match r.produktionGwh with
  | none => t
  | some v =>
    match assocGet PRODUCTION_SOURCE_INDEX r.energietraeger with
    | some i => tableSet t r.datum i v
    | none => t

/-- The shared aggregation of `import_production` and `parse_csv`:
fold the rows into the per-date arrays. -/
def dailyData (rows : List ProdRow) : DailyTable :=
  rows.foldl dailyStep []

/-! ### AtomicCompressedWriter (`save_compressed_json`, import_data.py
lines 401-428; `save_json`, import_production_data.py lines 111-144)

The filesystem is a path → content map; a failure is injected at a chosen
step of the writer.  `gzipStr` stands for the gzip encoding (its inverse
is not needed).  A `.error` result models the re-raised exception. -/

/-- The filesystem: association list from path to file content, newest
binding first. -/
structure FS where
  files : List (String × String)
  deriving DecidableEq, Repr

/-- Content at a path. -/
def fsGet (fs : FS) (p : String) : Option String := assocGet fs.files p

/-- Create or overwrite a file. -/
def fsSet (fs : FS) (p : String) (c : String) : FS := ⟨(p, c) :: fs.files⟩

/-- `os.unlink`: remove every binding of the path. -/
def fsDel (fs : FS) (p : String) : FS := ⟨fs.files.filter fun q => !(q.1 = p)⟩

/-- The steps of the writer at which a failure can be injected. -/
inductive WriteStep where
  | mkstemp
  | writeGzip
  | chmod
  | rename
  | getsize
  deriving DecidableEq, Repr

/-- Opaque stand-in for writing `json_str` through `gzip.open`. -/
def gzipStr (s : String) : String := "gzip:" ++ s

/-- `save_compressed_json` (and the identical `save_json`): create the
temp file, write the compressed JSON, set permissions, atomically rename
onto the destination.  On an exception the `except` block deletes the
temp file if `temp_path` is still set and re-raises.  `failAt` injects a
failure at the given step (`none`: no failure).  `chmod` changes no
modelled state; a failure at `getsize` happens after the rename, with
`temp_path` already cleared. -/
def saveCompressedJson (failAt : Option WriteStep) (tmp dest : String)
    (jsonStr : String) (fs : FS) : FS × Except Unit Unit :=
  if failAt = some .mkstemp then (fs, .error ())
  else
    let fs1 := fsSet fs tmp ""
    if failAt = some .writeGzip then (fsDel fs1 tmp, .error ())
    else
      let fs2 := fsSet fs1 tmp (gzipStr jsonStr)
      if failAt = some .chmod then (fsDel fs2 tmp, .error ())
      else if failAt = some .rename then (fsDel fs2 tmp, .error ())
      else
        let fs3 := fsSet (fsDel fs2 tmp) dest (gzipStr jsonStr)
        if failAt = some .getsize then (fs3, .error ())
        else (fs3, .ok ())

/-! ### Predicates used by the claims -/

/-- Well-formedness of a cache: every entry's `lat` and `lon` are both
null or both non-null.  `Geocoder.geocode` only ever stores such pairs,
but `Geocoder.load` accepts cache files that violate this. -/
def cacheWfB (c : Cache) : Bool :=
  c.all fun e => e.2.1.isSome == e.2.2.isSome

/-- Whether exactly one of two present values is Python `None`. -/
def mixedPair (a b : Option Value) : Bool :=
  match a, b with
  | some x, some y => isNoneV x != isNoneV y
  | _, _ => false

/-- The coordinate-exclusivity property of one output record: its `lat`
and `lon` values (when both keys are present) are not exactly-one-null. -/
def facilityLatLonOk (f : List (String × Value)) : Bool :=
  !(mixedPair (pyDictGet f "lat") (pyDictGet f "lon"))

/-- Shape discipline of a facility CSV stream: no empty rows, a data row
only after a header, and each data row with exactly the current header's
arity (`k` carries `header.length + 2`, the length of the `keys` list the
loop would hold). -/
def rowsShaped (k : Option Nat) : List (List String) → Bool
  | [] => true
  | row :: rest =>
    match row with
    | [] => false
    | c :: _ =>
      if containsSub "xtf_id" c then rowsShaped (some (row.length + 2)) rest
      else
        match k with
        | none => false
        | some n => (row.length + 2 == n) && rowsShaped k rest

/-- Whether a field is present in the translated-row dict with a truthy
value (exactly the condition under which `import_facilities` copies it
into `address_parts`). -/
def presentTruthy (fields : List (String × Value)) (f : String) : Bool :=
  match pyDictGet fields f with
  | some v => pyTruthy v
  | none => false

example : translateCell [] "1.2.3" = .error "ValueError" := by decide
example : translateCell [] "1.5" = .ok (.vFloat (mkRat 3 2)) := by decide
example : translateCell [] "300" = .ok (.vInt 300) := by decide
example : translateCell [] ".." = .ok (.vStr "..") := by decide
example : translateCell [("2", "Hydro")] "2" = .ok (.vStr "Hydro") := by decide
example : translateCell [] "ab1" = .ok (.vStr "ab1") := by decide

/-! ### Helper lemmas: filesystem -/

lemma fsGet_fsSet_self (fs : FS) (p c : String) : fsGet (fsSet fs p c) p = some c := by
  simp [fsGet, fsSet, assocGet]

lemma fsGet_fsSet_ne (fs : FS) (p q c : String) (h : q ≠ p) :
    fsGet (fsSet fs p c) q = fsGet fs q := by
  simp [fsGet, fsSet, assocGet, Ne.symm h]

lemma assocGet_filter_ne (l : List (String × String)) (p q : String) (h : q ≠ p) :
    assocGet (l.filter fun e => !(e.1 = p)) q = assocGet l q := by
  induction l with
  | nil => rfl
  | cons e t ih =>
    by_cases he : e.1 = p
    · simp [List.filter, he, assocGet, ih, Ne.symm h]
    · simp only [List.filter, he]
      simp [assocGet, ih]

lemma assocGet_filter_self (l : List (String × String)) (p : String) :
    assocGet (l.filter fun e => !(e.1 = p)) p = none := by
  induction l with
  | nil => rfl
  | cons e t ih =>
    by_cases he : e.1 = p
    · simpa [List.filter, he] using ih
    · simp only [List.filter, he]
      simp [assocGet, he, ih]

lemma fsGet_fsDel_ne (fs : FS) (p q : String) (h : q ≠ p) :
    fsGet (fsDel fs p) q = fsGet fs q :=
  assocGet_filter_ne fs.files p q h

lemma fsGet_fsDel_self (fs : FS) (p : String) : fsGet (fsDel fs p) p = none :=
  assocGet_filter_self fs.files p

/-- C7: if any step of the compressed-JSON write fails after the
temporary file is created but before the rename onto the destination
(failure injected at the gzip write, the chmod, or the rename itself),
the writer deletes the temporary file, propagates the failure, and the
destination is exactly as before the call — its previous content
unchanged, or still absent if it never existed. -/
theorem c7_atomic_write_failure_cleanup (failAt : WriteStep) (tmp dest jsonStr : String)
    (fs : FS)
    (hstep : failAt = .writeGzip ∨ failAt = .chmod ∨ failAt = .rename)
    (hne : tmp ≠ dest) :
    (saveCompressedJson (some failAt) tmp dest jsonStr fs).2 = .error () ∧
    fsGet (saveCompressedJson (some failAt) tmp dest jsonStr fs).1 dest = fsGet fs dest ∧
    fsGet (saveCompressedJson (some failAt) tmp dest jsonStr fs).1 tmp = none := by
  have hds : dest ≠ tmp := Ne.symm hne
  rcases hstep with h | h | h <;> subst h <;>
    refine ⟨by simp [saveCompressedJson], ?_, ?_⟩ <;>
    simp [saveCompressedJson, fsGet_fsDel_ne _ _ _ hds, fsGet_fsDel_self,
      fsGet_fsSet_ne _ _ _ _ hds]

/-- Witness for C7 at a concrete failing rename over a filesystem holding
a previous output at the destination. -/
theorem c7_witness :
    (saveCompressedJson (some .rename) ".prod_temp_x" "data/facilities.json.gz" "[]"
        ⟨[("data/facilities.json.gz", "old")]⟩).2 = .error () ∧
    fsGet (saveCompressedJson (some .rename) ".prod_temp_x" "data/facilities.json.gz" "[]"
        ⟨[("data/facilities.json.gz", "old")]⟩).1 "data/facilities.json.gz" =
      fsGet ⟨[("data/facilities.json.gz", "old")]⟩ "data/facilities.json.gz" ∧
    fsGet (saveCompressedJson (some .rename) ".prod_temp_x" "data/facilities.json.gz" "[]"
        ⟨[("data/facilities.json.gz", "old")]⟩).1 ".prod_temp_x" = none :=
  c7_atomic_write_failure_cleanup .rename ".prod_temp_x" "data/facilities.json.gz" "[]"
    ⟨[("data/facilities.json.gz", "old")]⟩ (Or.inr (Or.inr rfl)) (by decide)

/-- C8: at the projected input pair `(2600000, 1200000)` the hand-rolled
polynomial `to_lat_lon` returns latitude `63.8523892` and longitude
`10.117492733333333` — the latitude is far outside the claimed
Switzerland range `45.8 ≤ lat ≤ 47.9` (the code adds the fixed offsets
`46.95` / `7.439583333333333` to values that are already full
coordinates in units of 10000 seconds of arc, instead of scaling them
by `100/36`). -/
theorem c8_to_lat_lon_out_of_range :
    (to_lat_lon 2600000 1200000).1 = 63.8523892 ∧
    (to_lat_lon 2600000 1200000).2 = 10.117492733333333 ∧
    ¬ ((45.8 : ℚ) ≤ (to_lat_lon 2600000 1200000).1 ∧
       (to_lat_lon 2600000 1200000).1 ≤ 47.9) := by
  norm_num [to_lat_lon, pyIntOf]

/-- C6: a `Geocoder.geocode` call on an uncached address triple issues
exactly one network request and stores the parsed outcome; an immediately
repeated call on the same triple returns the identical pair — including
an explicit `(None, None)` — from the cache, with the state (hence the
request count) unchanged. -/
theorem c6_geocode_idempotent (oracle : GeoOracle) (st : GeoState) (a p m : Value)
    (resp : Option (ℚ × ℚ))
    (hmiss : cacheGet st.cache (cacheKey a p m) = none)
    (hresp : oracle st.requests = .ok resp) :
    geocode oracle st a p m =
      (⟨cacheSet st.cache (cacheKey a p m) (respToPair resp), st.requests + 1⟩,
        .ok (respToPair resp)) ∧
    geocode oracle
        ⟨cacheSet st.cache (cacheKey a p m) (respToPair resp), st.requests + 1⟩ a p m =
      (⟨cacheSet st.cache (cacheKey a p m) (respToPair resp), st.requests + 1⟩,
        .ok (respToPair resp)) := by
  constructor
  · simp [geocode, hmiss, hresp]
  · simp [geocode, cacheSet, cacheGet]

/-- Witness for C6: an empty cache, a not-found response, two calls. -/
theorem c6_witness :
    geocode (fun _ => .ok none) ⟨[], 0⟩ (.vStr "Haupt 1") (.vInt 3000) (.vStr "Bern") =
      (⟨[("Haupt 1|3000|Bern", (none, none))], 1⟩, .ok (none, none)) ∧
    geocode (fun _ => .ok none) ⟨[("Haupt 1|3000|Bern", (none, none))], 1⟩
        (.vStr "Haupt 1") (.vInt 3000) (.vStr "Bern") =
      (⟨[("Haupt 1|3000|Bern", (none, none))], 1⟩, .ok (none, none)) :=
  c6_geocode_idempotent (fun _ => .ok none) ⟨[], 0⟩
    (.vStr "Haupt 1") (.vInt 3000) (.vStr "Bern") none (by decide) rfl

/-! ### Helper lemmas: the row loop -/

lemma importLoop_skip_on_row_error (tf : ℚ → ℚ → ℚ × ℚ) (tr : List (String × String))
    (oracle : GeoOracle) (ks : List String) (st : GeoState)
    (acc : List (List (String × Value))) (c : String) (cs : List String)
    (rest : List (List String)) (st' : GeoState) (e : String)
    (hc : containsSub "xtf_id" c = false)
    (hp : processRow tf tr oracle ks st (c :: cs) = (st', .error e)) :
    importLoop tf tr oracle ((c :: cs) :: rest) (some ks) st acc =
      importLoop tf tr oracle rest (some ks) st' acc := by
  simp [importLoop, hc, hp]

lemma importLoop_empty_row (tf : ℚ → ℚ → ℚ × ℚ) (tr : List (String × String))
    (oracle : GeoOracle) (keys? : Option (List String)) (st : GeoState)
    (acc : List (List (String × Value))) (rest : List (List String)) :
    importLoop tf tr oracle ([] :: rest) keys? st acc = .error "IndexError" := by
  simp [importLoop]

lemma importLoop_no_keys (tf : ℚ → ℚ → ℚ × ℚ) (tr : List (String × String))
    (oracle : GeoOracle) (st : GeoState) (acc : List (List (String × Value)))
    (c : String) (cs : List String) (rest : List (List String))
    (hc : containsSub "xtf_id" c = false) :
    importLoop tf tr oracle ((c :: cs) :: rest) none st acc =
      .error "No keys found in facilities data" := by
  simp [importLoop, hc]

/-- C1 (counterexample): a run in which the geocoding HTTP request fails
on the first data row does NOT abort — `import_facilities` returns
normally, the failed row is skipped, the next row still produces a
record, and no cache entry exists for the failed address key (the final
cache is empty while one request was issued). -/
theorem c1_counterexample :
    importFacilities (fun a b => (a, b)) [] (fun _ => .error ()) []
      [["xtf_id", "Address", "PostCode", "Municipality", "A", "B"],
       ["id1", "Haupt 1", "3000", "Bern", "x", "y"],
       ["id2", "x", "3000", "Bern", "2600000", "1200000"]] =
    .ok ([[("Municipality", .vStr "Bern"), ("lat", .vFloat (mkRat 2600000 1)),
      ("lon", .vFloat (mkRat 1200000 1))]], ⟨[], 1⟩) := by decide

/-- C1 (amended): when the HTTP lookup for an uncached address key fails,
the failure propagates out of `Geocoder.geocode` with no retry (exactly
one request is issued) and no entry is stored for that key (the cache is
unchanged); inside `import_facilities` the per-row handler catches the
exception and only that row is skipped — processing continues with the
remaining rows. -/
theorem c1_geocode_failure (oracle : GeoOracle) (st : GeoState) (a p m : Value)
    (hmiss : cacheGet st.cache (cacheKey a p m) = none)
    (hfail : oracle st.requests = .error ()) :
    geocode oracle st a p m = (⟨st.cache, st.requests + 1⟩, .error "HTTPError") ∧
    ∀ (tf : ℚ → ℚ → ℚ × ℚ) (tr : List (String × String)) (ks : List String)
      (st₀ st' : GeoState) (acc : List (List (String × Value)))
      (c : String) (cs : List String) (rest : List (List String)) (e : String),
      containsSub "xtf_id" c = false →
      processRow tf tr oracle ks st₀ (c :: cs) = (st', .error e) →
      importLoop tf tr oracle ((c :: cs) :: rest) (some ks) st₀ acc =
        importLoop tf tr oracle rest (some ks) st' acc := by
  constructor
  · simp [geocode, hmiss, hfail]
  · intro tf tr ks st₀ st' acc c cs rest e hc hp
    exact importLoop_skip_on_row_error tf tr oracle ks st₀ acc c cs rest st' e hc hp

/-- Witness for C1 at a concrete failing request: the geocode call errors
with the cache unchanged, and the loop skips exactly the failing row. -/
theorem c1_witness :
    geocode (fun _ => .error ()) ⟨[], 0⟩ (.vStr "Haupt 1") (.vInt 3000) (.vStr "Bern") =
      (⟨[], 1⟩, .error "HTTPError") ∧
    importLoop (fun a b => (a, b)) [] (fun _ => .error ())
        [["id1", "Haupt 1", "3000", "Bern", "x", "y"]]
        (some ["xtf_id", "Address", "PostCode", "Municipality", "A", "B", "lat", "lon"])
        ⟨[], 0⟩ [] =
      importLoop (fun a b => (a, b)) [] (fun _ => .error ()) []
        (some ["xtf_id", "Address", "PostCode", "Municipality", "A", "B", "lat", "lon"])
        ⟨[], 1⟩ [] :=
  ⟨(c1_geocode_failure (fun _ => .error ()) ⟨[], 0⟩ (.vStr "Haupt 1") (.vInt 3000)
      (.vStr "Bern") (by decide) rfl).1,
   (c1_geocode_failure (fun _ => .error ()) ⟨[], 0⟩ (.vStr "Haupt 1") (.vInt 3000)
      (.vStr "Bern") (by decide) rfl).2
     (fun a b => (a, b)) [] ["xtf_id", "Address", "PostCode", "Municipality", "A", "B", "lat", "lon"]
     ⟨[], 0⟩ ⟨[], 1⟩ [] "id1" ["Haupt 1", "3000", "Bern", "x", "y"] [] "HTTPError"
     (by decide) (by decide)⟩

/-- C3 (counterexample): a data row arriving before any header row makes
`import_facilities` raise and abort the whole run, and an empty data row
raises `IndexError` at `row[0]` outside the per-row handler — refuting
"no per-row condition ever aborts the whole run". -/
theorem c3_counterexample :
    importFacilities (fun a b => (a, b)) [] (fun _ => .ok none) [] [["id1", "Bern"]] =
      .error "No keys found in facilities data" ∧
    importFacilities (fun a b => (a, b)) [] (fun _ => .ok none) []
      [["xtf_id", "B"], []] = .error "IndexError" := by decide

/-- C3 (amended): an exception raised inside the per-row `try` block
(translation, coordinate resolution, geocoding, projection) is caught and
only that row is skipped; but an empty row (`IndexError` at `row[0]`) or
a data row before any header row (`Exception('No keys found...')`) raises
outside the handler and aborts the whole run. -/
theorem c3_row_error_handling (tf : ℚ → ℚ → ℚ × ℚ) (tr : List (String × String))
    (oracle : GeoOracle) :
    (∀ (ks : List String) (st : GeoState) (acc : List (List (String × Value)))
        (c : String) (cs : List String) (rest : List (List String))
        (st' : GeoState) (e : String),
      containsSub "xtf_id" c = false →
      processRow tf tr oracle ks st (c :: cs) = (st', .error e) →
      importLoop tf tr oracle ((c :: cs) :: rest) (some ks) st acc =
        importLoop tf tr oracle rest (some ks) st' acc) ∧
    (∀ (keys? : Option (List String)) (st : GeoState)
        (acc : List (List (String × Value))) (rest : List (List String)),
      importLoop tf tr oracle ([] :: rest) keys? st acc = .error "IndexError") ∧
    (∀ (st : GeoState) (acc : List (List (String × Value)))
        (c : String) (cs : List String) (rest : List (List String)),
      containsSub "xtf_id" c = false →
      importLoop tf tr oracle ((c :: cs) :: rest) none st acc =
        .error "No keys found in facilities data") :=
  ⟨fun ks st acc c cs rest st' e hc hp =>
    importLoop_skip_on_row_error tf tr oracle ks st acc c cs rest st' e hc hp,
   fun keys? st acc rest => importLoop_empty_row tf tr oracle keys? st acc rest,
   fun st acc c cs rest hc => importLoop_no_keys tf tr oracle st acc c cs rest hc⟩

/-- Witness for C3: a row whose translation raises is skipped (the loop
continues on the remaining rows), while the empty-row and
data-before-header conditions abort. -/
theorem c3_witness :
    importLoop (fun a b => (a, b)) [] (fun _ => .error ())
        [["id1", "1.2.3"]] (some ["xtf_id", "C", "lat", "lon"]) ⟨[], 0⟩ [] =
      importLoop (fun a b => (a, b)) [] (fun _ => .error ()) []
        (some ["xtf_id", "C", "lat", "lon"]) ⟨[], 0⟩ [] ∧
    importLoop (fun a b => (a, b)) [] (fun _ => .error ()) [[]] none ⟨[], 0⟩ [] =
      .error "IndexError" ∧
    importLoop (fun a b => (a, b)) [] (fun _ => .error ()) [["id1", "x"]] none ⟨[], 0⟩ [] =
      .error "No keys found in facilities data" :=
  ⟨(c3_row_error_handling (fun a b => (a, b)) [] (fun _ => .error ())).1
      ["xtf_id", "C", "lat", "lon"] ⟨[], 0⟩ [] "id1" ["1.2.3"] [] ⟨[], 0⟩ "ValueError"
      (by decide) (by decide),
   (c3_row_error_handling (fun a b => (a, b)) [] (fun _ => .error ())).2.1 none ⟨[], 0⟩ [] [],
   (c3_row_error_handling (fun a b => (a, b)) [] (fun _ => .error ())).2.2 ⟨[], 0⟩ [] "id1"
      ["x"] [] (by decide)⟩

/-! ### Helper lemmas: dot counting and splitting -/

lemma splitChar_length (c : Char) (l : List Char) :
    (splitChar c l).length = l.count c + 1 := by
  induction l with
  | nil => rfl
  | cons x xs ih =>
    by_cases hx : x = c
    · simp [splitChar, hx, List.count_cons, ih]
    · cases hr : splitChar c xs with
      | nil => rw [hr] at ih; simp at ih
      | cons h t =>
        rw [hr] at ih
        simp only [splitChar, hr, hx, if_false, List.length_cons] at ih ⊢
        simp [List.count_cons, hx, ← ih]

lemma contains_iff_count_pos (c : Char) (l : List Char) :
    l.contains c = true ↔ 0 < l.count c := by
  induction l with
  | nil => simp [List.count_nil]
  | cons x xs ih =>
    by_cases hx : x = c
    · simp [hx, List.count_cons]
    · simp [List.count_cons, hx, ← ih, List.contains_cons, beq_iff_eq,
        fun h => hx (h : x = c)]
      intro h
      exact absurd h.symm hx

/-- C4 (counterexample): the raw cell `"1.2.3"` consists only of digits
and dots and is not parseable as a number, yet the translation step does
NOT pass it through as a string — it raises `ValueError` (the digit guard
`value.replace('.', '').isdigit()` passes and `float('1.2.3')` throws);
in `import_facilities` the per-row handler then drops the whole row, even
one carrying valid coordinates. -/
theorem c4_counterexample :
    translateCell [] "1.2.3" = .error "ValueError" ∧
    importFacilities (fun a b => (a, b)) [] (fun _ => .ok none) []
      [["xtf_id", "A", "B", "C"], ["x", "1.2.3", "2600000", "1200000"]] =
      .ok ([], ⟨[], 0⟩) := by decide

/-- C4 (amended): for a raw cell that is not a catalogue code and whose
dot-stripped form is a nonempty digit string, the translation returns a
float when there is exactly one dot, an int when there is none, and
raises `ValueError` when there are two or more dots (rather than passing
the value through as a string). -/
theorem c4_numeric_guard (tr : List (String × String)) (s : String)
    (hmiss : assocGet tr s = none)
    (hdig : pyIsDigit (stripDots s) = true) :
    (2 ≤ countDots s → translateCell tr s = .error "ValueError") ∧
    (countDots s = 1 → ∃ q, translateCell tr s = .ok (.vFloat q)) ∧
    (countDots s = 0 → translateCell tr s = .ok (.vInt (Int.ofNat (natOfDigits s.toList)))) := by
  have hsp := splitChar_length '.' s.toList
  refine ⟨?_, ?_, ?_⟩
  · intro h2
    have hcd : containsDot s = true := by
      unfold containsDot
      refine (contains_iff_count_pos _ _).2 ?_
      unfold countDots at h2
      omega
    have hnone : parseDotFloat s = none := by
      cases hm : splitChar '.' s.toList with
      | nil => unfold parseDotFloat; rw [hm]
      | cons a t =>
        cases t with
        | nil => unfold parseDotFloat; rw [hm]
        | cons b u =>
          cases u with
          | nil =>
            exfalso
            rw [hm] at hsp
            unfold countDots at h2
            simp only [List.length_cons, List.length_nil] at hsp
            omega
          | cons d w => unfold parseDotFloat; rw [hm]
    simp [translateCell, hmiss, hdig, hcd, hnone]
  · intro h1
    have hcd : containsDot s = true := by
      unfold containsDot
      refine (contains_iff_count_pos _ _).2 ?_
      unfold countDots at h1
      omega
    unfold countDots at h1
    rw [h1] at hsp
    obtain ⟨a, b, hm⟩ : ∃ a b, splitChar '.' s.toList = [a, b] := by
      cases hm : splitChar '.' s.toList with
      | nil => rw [hm] at hsp; simp at hsp
      | cons a t =>
        cases t with
        | nil => rw [hm] at hsp; simp at hsp
        | cons b u =>
          cases u with
          | nil => exact ⟨a, b, rfl⟩
          | cons d w => rw [hm] at hsp; simp at hsp
    have hm' : splitChar '.' s.data = [a, b] := hm
    refine ⟨mkRat (Int.ofNat (natOfDigits (a ++ b))) (10 ^ b.length), ?_⟩
    simp [translateCell, hmiss, hdig, hcd, parseDotFloat, hm, hm']
  · intro h0
    have hcd : containsDot s = false := by
      unfold containsDot
      cases hc : s.toList.contains '.' with
      | false => rfl
      | true =>
        exfalso
        have := (contains_iff_count_pos '.' s.toList).1 hc
        unfold countDots at h0
        omega
    simp [translateCell, hmiss, hdig, hcd]

/-- Witness for C4: the three branches at concrete digit-and-dot cells. -/
theorem c4_witness :
    translateCell [] "1.2.3" = .error "ValueError" ∧
    (∃ q, translateCell [] "1.5" = .ok (.vFloat q)) ∧
    translateCell [] "15" = .ok (.vInt 15) :=
  ⟨(c4_numeric_guard [] "1.2.3" rfl (by decide)).1 (by decide),
   (c4_numeric_guard [] "1.5" rfl (by decide)).2.1 (by decide),
   (c4_numeric_guard [] "15" rfl (by decide)).2.2 (by decide)⟩

/-! ### Helper lemmas: last-writer-wins dict lookup -/

lemma pyDictGet_cons (e : String × Value) (t : List (String × Value)) (k : String) :
    pyDictGet (e :: t) k =
      match pyDictGet t k with
      | some v => some v
      | none => if e.1 = k then some e.2 else none := rfl

lemma pyDictGet_append (l₁ l₂ : List (String × Value)) (k : String) :
    pyDictGet (l₁ ++ l₂) k =
      match pyDictGet l₂ k with
      | some v => some v
      | none => pyDictGet l₁ k := by
  induction l₁ with
  | nil =>
    simp only [List.nil_append]
    cases h : pyDictGet l₂ k <;> simp [h, pyDictGet]
  | cons e t ih =>
    show (match pyDictGet (t ++ l₂) k with
      | some v => some v
      | none => if e.1 = k then some e.2 else none) = _
    rw [ih]
    cases h2 : pyDictGet l₂ k <;> cases h1 : pyDictGet t k <;> simp [pyDictGet, h1, h2]

/-! ### Helper lemmas: the `address_parts` construction -/

lemma apBuild_get_not_mem (fields : List (String × Value)) (fs : List String) (k : String)
    (hk : k ∉ fs) : pyDictGet (apBuild fields fs) k = none := by
  induction fs with
  | nil => rfl
  | cons f t ih =>
    have hkf : k ≠ f := fun h => hk (h ▸ List.mem_cons_self f t)
    have hkt : k ∉ t := fun h => hk (List.mem_cons_of_mem f h)
    simp only [apBuild]
    cases hq : pyDictGet fields f with
    | none => exact ih hkt
    | some v =>
      by_cases ht : pyTruthy v
      · simp only [ht, if_true, pyDictGet]
        rw [ih hkt]
        simp [Ne.symm hkf]
      · simp only [ht, if_false]
        exact ih hkt

lemma apBuild_get_mem (fields : List (String × Value)) (fs : List String) (k : String)
    (hk : k ∈ fs) :
    pyDictGet (apBuild fields fs) k =
      if presentTruthy fields k then pyDictGet fields k else none := by
  induction fs with
  | nil => cases hk
  | cons f t ih =>
    simp only [apBuild]
    by_cases hkt : k ∈ t
    · have htail := ih hkt
      cases hq : pyDictGet fields f with
      | none => exact htail
      | some v =>
        by_cases ht : pyTruthy v
        · simp only [ht, if_true, pyDictGet]
          rw [htail]
          by_cases hp : presentTruthy fields k
          · simp only [hp, if_true]
            cases hg : pyDictGet fields k with
            | none =>
              exfalso
              unfold presentTruthy at hp
              rw [hg] at hp
              simp at hp
            | some w => simp
          · simp only [hp, if_false]
            by_cases hkf : f = k
            · exfalso
              unfold presentTruthy at hp
              rw [hkf] at hq
              rw [hq] at hp
              simp [ht] at hp
            · simp [hkf]
        · simp only [ht, if_false]
          exact htail
    · have hkf : k = f := by
        rcases List.mem_cons.1 hk with h | h
        · exact h
        · exact absurd h hkt
      subst hkf
      cases hq : pyDictGet fields k with
      | none =>
        show pyDictGet (apBuild fields t) k = _
        rw [apBuild_get_not_mem fields t k hkt]
        unfold presentTruthy
        rw [hq]
        simp
      | some v =>
        by_cases ht : pyTruthy v
        · simp only [ht, if_true, pyDictGet]
          rw [apBuild_get_not_mem fields t k hkt]
          unfold presentTruthy
          rw [hq]
          simp [ht]
        · simp only [ht, Bool.false_eq_true, if_false]
          rw [apBuild_get_not_mem fields t k hkt]
          unfold presentTruthy
          rw [hq]
          simp [ht]

lemma apBuild_eq_nil (fields : List (String × Value)) (fs : List String)
    (h : ∀ f ∈ fs, presentTruthy fields f = false) : apBuild fields fs = [] := by
  induction fs with
  | nil => rfl
  | cons f t ih =>
    have hf := h f (List.mem_cons_self f t)
    simp only [apBuild]
    cases hq : pyDictGet fields f with
    | none => exact ih fun g hg => h g (List.mem_cons_of_mem f hg)
    | some v =>
      unfold presentTruthy at hf
      rw [hq] at hf
      simp at hf
      simp only [hf, Bool.false_eq_true, if_false]
      exact ih fun g hg => h g (List.mem_cons_of_mem f hg)

lemma apBuild_isEmpty_false (fields : List (String × Value)) (fs : List String) (f : String)
    (hf : f ∈ fs) (h : presentTruthy fields f = true) :
    (apBuild fields fs).isEmpty = false := by
  induction fs with
  | nil => cases hf
  | cons g t ih =>
    simp only [apBuild]
    rcases List.mem_cons.1 hf with rfl | hmem
    · unfold presentTruthy at h
      cases hq : pyDictGet fields f with
      | none => rw [hq] at h; cases h
      | some v =>
        rw [hq] at h
        simp at h
        simp only [h, if_true]
        rfl
    · cases hq : pyDictGet fields g with
      | none => exact ih hmem
      | some v =>
        by_cases ht : pyTruthy v
        · simp only [ht, if_true]
          rfl
        · simp only [ht, Bool.false_eq_true, if_false]
          exact ih hmem

lemma presentTruthy_some (fields : List (String × Value)) (f : String)
    (h : presentTruthy fields f = true) :
    ∃ v, pyDictGet fields f = some v ∧ pyTruthy v = true := by
  unfold presentTruthy at h
  cases hq : pyDictGet fields f with
  | none => rw [hq] at h; cases h
  | some v =>
    rw [hq] at h
    simp at h
    exact ⟨v, rfl, h⟩

/-- C5 (counterexample): a row on which coordinate resolution fails and
that has its Municipality present but Address and PostCode missing is NOT
projected with null coordinates — the guard
`address_parts and address_parts['Address'] ...` raises `KeyError` on the
non-empty partial dict and the per-row handler drops the row (no output
record), while a row with all three fields absent IS projected with null
coordinates. -/
theorem c5_counterexample :
    importFacilities (fun a b => (a, b)) [] (fun _ => .ok none) []
      [["xtf_id", "Municipality", "A", "B"], ["x1", "Bern", "foo", "bar"]] =
      .ok ([], ⟨[], 0⟩) ∧
    importFacilities (fun a b => (a, b)) [] (fun _ => .ok none) []
      [["xtf_id", "Q", "A", "B"], ["x1", "w", "foo", "bar"]] =
      .ok ([[("lat", .vNone), ("lon", .vNone)]], ⟨[], 0⟩) := by decide

/-- C5 (amended): on coordinate-resolution failure, if all three address
fields are present with truthy values the fallback calls
`Geocoder.geocode` on them; if none is present-and-truthy the row gets
`(None, None)` coordinates (and is still projected); but if some yet not
all of the three are present-and-truthy, the guard raises `KeyError`, so
the per-row handler drops the row instead of projecting it. -/
theorem c5_address_fallback (oracle : GeoOracle) (st : GeoState)
    (fields : List (String × Value)) :
    (presentTruthy fields "Address" = true → presentTruthy fields "PostCode" = true →
      presentTruthy fields "Municipality" = true →
      ∃ a p m, pyDictGet fields "Address" = some a ∧ pyDictGet fields "PostCode" = some p ∧
        pyDictGet fields "Municipality" = some m ∧
        addressFallback oracle st fields = geocode oracle st a p m) ∧
    (presentTruthy fields "Address" = false → presentTruthy fields "PostCode" = false →
      presentTruthy fields "Municipality" = false →
      addressFallback oracle st fields = (st, .ok (none, none))) ∧
    ((presentTruthy fields "Address" && presentTruthy fields "PostCode" &&
        presentTruthy fields "Municipality") = false →
      (presentTruthy fields "Address" || presentTruthy fields "PostCode" ||
        presentTruthy fields "Municipality") = true →
      addressFallback oracle st fields = (st, .error "KeyError")) := by
  have memA : ("Address" : String) ∈ ["Address", "PostCode", "Municipality"] := by simp
  have memP : ("PostCode" : String) ∈ ["Address", "PostCode", "Municipality"] := by simp
  have memM : ("Municipality" : String) ∈ ["Address", "PostCode", "Municipality"] := by simp
  refine ⟨?_, ?_, ?_⟩
  · intro hA hP hM
    obtain ⟨a, hga, hta⟩ := presentTruthy_some fields "Address" hA
    obtain ⟨p, hgp, htp⟩ := presentTruthy_some fields "PostCode" hP
    obtain ⟨m, hgm, htm⟩ := presentTruthy_some fields "Municipality" hM
    refine ⟨a, p, m, hga, hgp, hgm, ?_⟩
    have hne := apBuild_isEmpty_false fields _ "Address" memA hA
    have gA : pyDictGet (apBuild fields ["Address", "PostCode", "Municipality"]) "Address" =
        some a := by
      rw [apBuild_get_mem fields _ "Address" memA, hA]
      simp [hga]
    have gP : pyDictGet (apBuild fields ["Address", "PostCode", "Municipality"]) "PostCode" =
        some p := by
      rw [apBuild_get_mem fields _ "PostCode" memP, hP]
      simp [hgp]
    have gM : pyDictGet (apBuild fields ["Address", "PostCode", "Municipality"])
        "Municipality" = some m := by
      rw [apBuild_get_mem fields _ "Municipality" memM, hM]
      simp [hgm]
    simp only [addressFallback, hne, Bool.false_eq_true, if_false, gA, gP, gM, hta, htp, htm]
    simp
  · intro hA hP hM
    have hnil : apBuild fields ["Address", "PostCode", "Municipality"] = [] := by
      refine apBuild_eq_nil fields _ ?_
      intro f hf
      simp only [List.mem_cons, List.mem_singleton] at hf
      rcases hf with rfl | rfl | hf
      · exact hA
      · exact hP
      · simp at hf
        rw [hf]
        exact hM
    simp [addressFallback, hnil]
  · intro hand hor
    by_cases hA : presentTruthy fields "Address" = true
    · obtain ⟨a, hga, hta⟩ := presentTruthy_some fields "Address" hA
      have hne := apBuild_isEmpty_false fields _ "Address" memA hA
      have gA : pyDictGet (apBuild fields ["Address", "PostCode", "Municipality"]) "Address" =
          some a := by
        rw [apBuild_get_mem fields _ "Address" memA, hA]
        simp [hga]
      by_cases hP : presentTruthy fields "PostCode" = true
      · have hM : presentTruthy fields "Municipality" = false := by
          rw [hA, hP] at hand
          simpa using hand
        obtain ⟨p, hgp, htp⟩ := presentTruthy_some fields "PostCode" hP
        have gP : pyDictGet (apBuild fields ["Address", "PostCode", "Municipality"])
            "PostCode" = some p := by
          rw [apBuild_get_mem fields _ "PostCode" memP, hP]
          simp [hgp]
        have gM : pyDictGet (apBuild fields ["Address", "PostCode", "Municipality"])
            "Municipality" = none := by
          rw [apBuild_get_mem fields _ "Municipality" memM, hM]
          simp
        simp only [addressFallback, hne, Bool.false_eq_true, if_false, gA, gP, gM, hta, htp]
        simp
      · have hP' : presentTruthy fields "PostCode" = false := by
          cases hb : presentTruthy fields "PostCode"
          · rfl
          · exact absurd hb hP
        have gP : pyDictGet (apBuild fields ["Address", "PostCode", "Municipality"])
            "PostCode" = none := by
          rw [apBuild_get_mem fields _ "PostCode" memP, hP']
          simp
        simp only [addressFallback, hne, Bool.false_eq_true, if_false, gA, gP, hta]
        simp
    · have hA' : presentTruthy fields "Address" = false := by
        cases hb : presentTruthy fields "Address"
        · rfl
        · exact absurd hb hA
      have gA : pyDictGet (apBuild fields ["Address", "PostCode", "Municipality"]) "Address" =
          none := by
        rw [apBuild_get_mem fields _ "Address" memA, hA']
        simp
      have hne : (apBuild fields ["Address", "PostCode", "Municipality"]).isEmpty = false := by
        rw [hA'] at hor
        simp only [Bool.false_or] at hor
        cases hb : presentTruthy fields "PostCode" with
        | true => exact apBuild_isEmpty_false fields _ "PostCode" memP hb
        | false =>
          rw [hb] at hor
          simp only [Bool.false_or] at hor
          exact apBuild_isEmpty_false fields _ "Municipality" memM hor
      simp only [addressFallback, hne, Bool.false_eq_true, if_false, gA]

/-- Witness for C5: the three fallback behaviours at concrete field
dicts — full triple calls the geocoder, empty triple yields nulls,
partial triple raises. -/
theorem c5_witness :
    (∃ a p m,
      pyDictGet [("Address", Value.vStr "Haupt 1"), ("PostCode", Value.vInt 3000),
        ("Municipality", Value.vStr "Bern")] "Address" = some a ∧
      pyDictGet [("Address", Value.vStr "Haupt 1"), ("PostCode", Value.vInt 3000),
        ("Municipality", Value.vStr "Bern")] "PostCode" = some p ∧
      pyDictGet [("Address", Value.vStr "Haupt 1"), ("PostCode", Value.vInt 3000),
        ("Municipality", Value.vStr "Bern")] "Municipality" = some m ∧
      addressFallback (fun _ => .ok none) ⟨[], 0⟩
        [("Address", Value.vStr "Haupt 1"), ("PostCode", Value.vInt 3000),
          ("Municipality", Value.vStr "Bern")] =
        geocode (fun _ => .ok none) ⟨[], 0⟩ a p m) ∧
    addressFallback (fun _ => .ok none) ⟨[], 0⟩ [("Q", Value.vStr "w")] =
      (⟨[], 0⟩, .ok (none, none)) ∧
    addressFallback (fun _ => .ok none) ⟨[], 0⟩ [("Municipality", Value.vStr "Bern")] =
      (⟨[], 0⟩, .error "KeyError") :=
  ⟨(c5_address_fallback (fun _ => .ok none) ⟨[], 0⟩
      [("Address", Value.vStr "Haupt 1"), ("PostCode", Value.vInt 3000),
        ("Municipality", Value.vStr "Bern")]).1 (by decide) (by decide) (by decide),
   (c5_address_fallback (fun _ => .ok none) ⟨[], 0⟩ [("Q", Value.vStr "w")]).2.1
      (by decide) (by decide) (by decide),
   (c5_address_fallback (fun _ => .ok none) ⟨[], 0⟩ [("Municipality", Value.vStr "Bern")]).2.2
      (by decide) (by decide)⟩

/-- C9 (counterexample): a translated row whose last two typed values are
floats (`"2600000.5"`, `"1200000.5"`) is resolved through the transform
in `import_facilities` (which tests `isinstance(v, (int, float))`), but
both merge scripts (which test `isinstance(v, int)` only) do NOT treat it
as a usable pair and append `[None, None]` instead — the decision is not
the same in the three places. -/
theorem c9_counterexample :
    mergeEnergyRowValues (fun a b => (a, b)) [] ["2600000.5", "1200000.5"] =
      .ok [.vFloat (mkRat 5200001 2), .vFloat (mkRat 2400001 2), .vNone, .vNone] ∧
    mergeRenewRowValues (fun a b => (a, b)) [] ["2600000.5", "1200000.5"] =
      .ok [.vFloat (mkRat 5200001 2), .vFloat (mkRat 2400001 2), .vNone, .vNone] ∧
    processRow (fun a b => (a, b)) [] (fun _ => .ok none) ["a", "b", "lat", "lon"] ⟨[], 0⟩
        ["2600000.5", "1200000.5"] =
      (⟨[], 0⟩, .ok [("a", .vFloat (mkRat 5200001 2)), ("b", .vFloat (mkRat 2400001 2)),
        ("lat", .vFloat (mkRat 5200001 2)), ("lon", .vFloat (mkRat 2400001 2))]) := by decide

/-- C9 (amended): when the last two typed values of a translated row are
both numeric, `import_facilities` always resolves them through the
LV95→WGS84 transform; the two merge scripts do so only when both values
are `int`, and append `[None, None]` when either is a float. -/
theorem c9_coordinate_decision (tf : ℚ → ℚ → ℚ × ℚ) (tr : List (String × String))
    (row : List String) (tvs : List Value) (a b : Value)
    (ht : translateRow tr row = .ok tvs)
    (hl : vLast2 tvs = some (a, b))
    (ha : isNumValue a = true) (hb : isNumValue b = true) :
    (∀ (oracle : GeoOracle) (ks : List String) (st : GeoState),
      processRow tf tr oracle ks st row =
        (st, .ok (ks.zip (tvs ++ [.vFloat (tf (valueRat a) (valueRat b)).1,
          .vFloat (tf (valueRat a) (valueRat b)).2])))) ∧
    ((isIntValue a && isIntValue b) = true →
      mergeEnergyRowValues tf tr row =
        .ok (tvs ++ [.vFloat (tf (valueRat a) (valueRat b)).1,
          .vFloat (tf (valueRat a) (valueRat b)).2]) ∧
      mergeRenewRowValues tf tr row =
        .ok (tvs ++ [.vFloat (tf (valueRat a) (valueRat b)).1,
          .vFloat (tf (valueRat a) (valueRat b)).2])) ∧
    ((isIntValue a && isIntValue b) = false →
      mergeEnergyRowValues tf tr row = .ok (tvs ++ [.vNone, .vNone]) ∧
      mergeRenewRowValues tf tr row = .ok (tvs ++ [.vNone, .vNone])) := by
  refine ⟨?_, ?_, ?_⟩
  · intro oracle ks st
    rcases htf : tf (valueRat a) (valueRat b) with ⟨la, lo⟩
    simp [processRow, ht, hl, ha, hb, htf]
  · intro hint
    rcases htf : tf (valueRat a) (valueRat b) with ⟨la, lo⟩
    constructor <;>
      simp [mergeEnergyRowValues, mergeRenewRowValues, ht, hl, hint, htf]
  · intro hint
    constructor <;>
      simp [mergeEnergyRowValues, mergeRenewRowValues, ht, hl, hint]

/-- Witness for C9 at an integer row: all three places transform. -/
theorem c9_witness :
    processRow (fun a b => (a, b)) [] (fun _ => .ok none) ["a", "b", "lat", "lon"] ⟨[], 0⟩
        ["2600000", "1200000"] =
      (⟨[], 0⟩, .ok (["a", "b", "lat", "lon"].zip
        ([Value.vInt 2600000, Value.vInt 1200000] ++
          [.vFloat ((fun (a b : ℚ) => (a, b)) (valueRat (Value.vInt 2600000))
              (valueRat (Value.vInt 1200000))).1,
           .vFloat ((fun (a b : ℚ) => (a, b)) (valueRat (Value.vInt 2600000))
              (valueRat (Value.vInt 1200000))).2]))) ∧
    mergeEnergyRowValues (fun a b => (a, b)) [] ["2600000", "1200000"] =
      .ok ([Value.vInt 2600000, Value.vInt 1200000] ++
        [.vFloat ((fun (a b : ℚ) => (a, b)) (valueRat (Value.vInt 2600000))
            (valueRat (Value.vInt 1200000))).1,
         .vFloat ((fun (a b : ℚ) => (a, b)) (valueRat (Value.vInt 2600000))
            (valueRat (Value.vInt 1200000))).2]) :=
  ⟨(c9_coordinate_decision (fun a b => (a, b)) [] ["2600000", "1200000"]
      [Value.vInt 2600000, Value.vInt 1200000] (Value.vInt 2600000) (Value.vInt 1200000)
      (by decide) (by decide) (by decide) (by decide)).1 (fun _ => .ok none)
      ["a", "b", "lat", "lon"] ⟨[], 0⟩,
   ((c9_coordinate_decision (fun a b => (a, b)) [] ["2600000", "1200000"]
      [Value.vInt 2600000, Value.vInt 1200000] (Value.vInt 2600000) (Value.vInt 1200000)
      (by decide) (by decide) (by decide) (by decide)).2.1 (by decide)).1⟩

/-! ### Helper lemmas: production aggregation -/

lemma get?_set_self_of_lt (l : List ℚ) (i : Nat) (v : ℚ) (h : i < l.length) :
    (l.set i v).get? i = some v := by
  induction l generalizing i with
  | nil => cases h
  | cons x xs ih =>
    cases i with
    | zero => rfl
    | succ j => exact ih j (Nat.lt_of_succ_lt_succ h)

lemma get?_set_ne (l : List ℚ) (i j : Nat) (v : ℚ) (h : i ≠ j) :
    (l.set i v).get? j = l.get? j := by
  induction l generalizing i j with
  | nil => rfl
  | cons x xs ih =>
    cases i with
    | zero =>
      cases j with
      | zero => exact absurd rfl h
      | succ j' => rfl
    | succ i' =>
      cases j with
      | zero => rfl
      | succ j' => exact ih i' j' fun hc => h (by rw [hc])

lemma assocGet_mem {α β : Type} [DecidableEq α] (l : List (α × β)) (k : α) (v : β)
    (h : assocGet l k = some v) : (k, v) ∈ l := by
  induction l with
  | nil => cases h
  | cons e t ih =>
    rcases e with ⟨k', v'⟩
    by_cases hk : k' = k
    · subst hk
      simp [assocGet] at h
      subst h
      exact List.mem_cons_self _ _
    · simp [assocGet, hk] at h
      exact List.mem_cons_of_mem _ (ih h)

lemma prod_source_idx_lt (s : String) (i : Nat)
    (h : assocGet PRODUCTION_SOURCE_INDEX s = some i) : i < 6 := by
  have hm := assocGet_mem _ _ _ h
  simp [PRODUCTION_SOURCE_INDEX] at hm
  rcases hm with ⟨_, rfl⟩ | ⟨_, rfl⟩ | ⟨_, rfl⟩ | ⟨_, rfl⟩ | ⟨_, rfl⟩ | ⟨_, rfl⟩ <;> omega

lemma tableGet_mem (t : DailyTable) (d : String) (arr : List ℚ)
    (h : tableGet t d = some arr) : (d, arr) ∈ t := by
  induction t with
  | nil => cases h
  | cons e t' ih =>
    rcases e with ⟨d', arr'⟩
    by_cases hd : d' = d
    · subst hd
      simp [tableGet] at h
      subst h
      exact List.mem_cons_self _ _
    · simp [tableGet, hd] at h
      exact List.mem_cons_of_mem _ (ih h)

lemma tableSet_wf (t : DailyTable) (d : String) (i : Nat) (v : ℚ)
    (h : ∀ p ∈ t, p.2.length = 6) :
    ∀ p ∈ tableSet t d i v, p.2.length = 6 := by
  induction t with
  | nil =>
    intro p hp
    simp [tableSet] at hp
    subst hp
    simp
  | cons e t' ih =>
    rcases e with ⟨d', arr'⟩
    intro p hp
    by_cases hd : d' = d
    · simp only [tableSet, hd, if_true] at hp
      rcases List.mem_cons.1 hp with rfl | hmem
      · simpa using h (d', arr') (List.mem_cons_self _ _)
      · exact h p (List.mem_cons_of_mem _ hmem)
    · simp only [tableSet, hd, if_false] at hp
      rcases List.mem_cons.1 hp with rfl | hmem
      · exact h (d', arr') (List.mem_cons_self _ _)
      · exact ih (fun q hq => h q (List.mem_cons_of_mem _ hq)) p hmem

lemma dailyStep_wf (t : DailyTable) (r : ProdRow)
    (h : ∀ p ∈ t, p.2.length = 6) : ∀ p ∈ dailyStep t r, p.2.length = 6 := by
  unfold dailyStep
  cases r.produktionGwh with
  | none => exact h
  | some w =>
    cases assocGet PRODUCTION_SOURCE_INDEX r.energietraeger with
    | none => exact h
    | some j => exact tableSet_wf t r.datum j w h

lemma dailyFold_wf (rows : List ProdRow) (t : DailyTable)
    (h : ∀ p ∈ t, p.2.length = 6) : ∀ p ∈ rows.foldl dailyStep t, p.2.length = 6 := by
  induction rows generalizing t with
  | nil => exact h
  | cons r rest ih => exact ih (dailyStep t r) (dailyStep_wf t r h)

lemma tableGet_set_found (t : DailyTable) (d : String) (i : Nat) (v : ℚ) (arr : List ℚ)
    (h : tableGet t d = some arr) :
    tableGet (tableSet t d i v) d = some (arr.set i v) := by
  induction t with
  | nil => cases h
  | cons e t' ih =>
    rcases e with ⟨d', arr'⟩
    by_cases hd : d' = d
    · subst hd
      simp [tableGet] at h
      subst h
      simp [tableSet, tableGet]
    · simp [tableGet, hd] at h
      simp [tableSet, tableGet, hd]
      exact ih h

lemma tableGet_set_missing (t : DailyTable) (d : String) (i : Nat) (v : ℚ)
    (h : tableGet t d = none) :
    tableGet (tableSet t d i v) d = some ((List.replicate 6 (0 : ℚ)).set i v) := by
  induction t with
  | nil => simp [tableSet, tableGet]
  | cons e t' ih =>
    rcases e with ⟨d', arr'⟩
    by_cases hd : d' = d
    · subst hd
      simp [tableGet] at h
    · simp [tableGet, hd] at h
      simp [tableSet, tableGet, hd]
      exact ih h

lemma tableGet_set_other (t : DailyTable) (d d' : String) (i : Nat) (v : ℚ)
    (h : d' ≠ d) : tableGet (tableSet t d i v) d' = tableGet t d' := by
  induction t with
  | nil => simp [tableSet, tableGet, Ne.symm h]
  | cons e t' ih =>
    rcases e with ⟨d'', arr''⟩
    by_cases hd : d'' = d
    · subst hd
      simp [tableSet, tableGet, Ne.symm h]
    · simp only [tableSet, hd, if_false]
      by_cases hd2 : d'' = d'
      · simp [tableGet, hd2]
      · simp only [tableGet, hd2, if_false]
        exact ih

lemma tableGetIdx_set_self (t : DailyTable) (d : String) (i : Nat) (v : ℚ)
    (hwf : ∀ p ∈ t, p.2.length = 6) (hi : i < 6) :
    tableGetIdx (tableSet t d i v) d i = some v := by
  cases hg : tableGet t d with
  | none =>
    rw [tableGetIdx, tableGet_set_missing t d i v hg]
    exact get?_set_self_of_lt _ i v (by simpa using hi)
  | some arr =>
    rw [tableGetIdx, tableGet_set_found t d i v arr hg]
    have harr : arr.length = 6 := hwf (d, arr) (tableGet_mem t d arr hg)
    exact get?_set_self_of_lt _ i v (by rw [harr]; exact hi)

lemma tableGetIdx_set_preserve (t : DailyTable) (d d' : String) (i i' : Nat) (v v' : ℚ)
    (hne : d' ≠ d ∨ i' ≠ i)
    (h : tableGetIdx t d i = some v) :
    tableGetIdx (tableSet t d' i' v') d i = some v := by
  by_cases hd : d' = d
  · subst hd
    have hii : i' ≠ i := by
      rcases hne with hc | hc
      · exact absurd rfl hc
      · exact hc
    cases hg : tableGet t d' with
    | none => rw [tableGetIdx, hg] at h; cases h
    | some arr =>
      rw [tableGetIdx, hg] at h
      have h' : arr.get? i = some v := h
      rw [tableGetIdx, tableGet_set_found t d' i' v' arr hg]
      show (arr.set i' v').get? i = some v
      rw [get?_set_ne arr i' i v' hii]
      exact h'
  · rw [tableGetIdx, tableGet_set_other t d' d i' v' (fun hc => hd hc.symm)]
    exact h

lemma dailyStep_preserve (t : DailyTable) (r : ProdRow) (d : String) (i : Nat) (v : ℚ)
    (h : tableGetIdx t d i = some v)
    (hr : ¬(r.datum = d ∧ r.produktionGwh.isSome ∧
      assocGet PRODUCTION_SOURCE_INDEX r.energietraeger = some i)) :
    tableGetIdx (dailyStep t r) d i = some v := by
  unfold dailyStep
  cases hv : r.produktionGwh with
  | none => exact h
  | some w =>
    cases hs : assocGet PRODUCTION_SOURCE_INDEX r.energietraeger with
    | none => exact h
    | some j =>
      refine tableGetIdx_set_preserve t d r.datum i j v w ?_ h
      by_cases hd : r.datum = d
      · right
        intro hj
        exact hr ⟨hd, by simp [hv], by rw [hs, hj]⟩
      · left
        exact hd

lemma dailyFold_preserve (post : List ProdRow) (t : DailyTable) (d : String) (i : Nat) (v : ℚ)
    (h : tableGetIdx t d i = some v)
    (hpost : ∀ r' ∈ post, ¬(r'.datum = d ∧ r'.produktionGwh.isSome ∧
      assocGet PRODUCTION_SOURCE_INDEX r'.energietraeger = some i)) :
    tableGetIdx (post.foldl dailyStep t) d i = some v := by
  induction post generalizing t with
  | nil => exact h
  | cons r rest ih =>
    simp only [List.foldl_cons]
    refine ih (dailyStep t r) ?_ fun r' hr' => hpost r' (List.mem_cons_of_mem r hr')
    exact dailyStep_preserve t r d i v h (hpost r (List.mem_cons_self r rest))

/-- C10: when a production CSV contains several rows with the same date
and the same recognized energy source, the aggregation shared by
`import_production` and `parse_csv` records the LAST such row's
`Produktion_GWh` value at the source's fixed index — dict assignment
overwrites, values are never summed.  Here `pre` may contain any earlier
rows (including duplicates of the same date and source) and `post` any
later rows that do not write the same date and index again. -/
theorem c10_last_row_wins (pre post : List ProdRow) (d s : String) (i : Nat) (v : ℚ)
    (hi : assocGet PRODUCTION_SOURCE_INDEX s = some i)
    (hpost : ∀ r' ∈ post, ¬(r'.datum = d ∧ r'.produktionGwh.isSome ∧
      assocGet PRODUCTION_SOURCE_INDEX r'.energietraeger = some i)) :
    tableGetIdx (dailyData (pre ++ ⟨d, s, some v⟩ :: post)) d i = some v := by
  unfold dailyData
  rw [List.foldl_append, List.foldl_cons]
  refine dailyFold_preserve post _ d i v ?_ hpost
  have hwf : ∀ p ∈ pre.foldl dailyStep [], p.2.length = 6 :=
    dailyFold_wf pre [] (by intro p hp; cases hp)
  show tableGetIdx (dailyStep (pre.foldl dailyStep []) ⟨d, s, some v⟩) d i = some v
  unfold dailyStep
  simp only [hi]
  exact tableGetIdx_set_self (pre.foldl dailyStep []) d i v hwf
    (prod_source_idx_lt s i hi)

/-- Witness for C10: two `Wind` rows on the same date — the recorded
value is the second row's `7`, not the sum `12`. -/
theorem c10_witness :
    tableGetIdx (dailyData [⟨"2024-01-01", "Wind", some (mkRat 5 1)⟩,
      ⟨"2024-01-01", "Wind", some (mkRat 7 1)⟩]) "2024-01-01" 5 = some (mkRat 7 1) :=
  c10_last_row_wins [⟨"2024-01-01", "Wind", some (mkRat 5 1)⟩] [] "2024-01-01" "Wind" 5
    (mkRat 7 1) (by decide) (by intro r' hr'; cases hr')

/-! ### Helper lemmas: translated values are never `None` -/

lemma translateCell_ne_none (tr : List (String × String)) (s : String) (v : Value)
    (h : translateCell tr s = .ok v) : isNoneV v = false := by
  unfold translateCell at h
  cases hq : assocGet tr s with
  | some t => rw [hq] at h; simp at h; subst h; rfl
  | none =>
    rw [hq] at h
    by_cases hd : pyIsDigit (stripDots s)
    · simp only [hd, if_true] at h
      by_cases hc : containsDot s
      · simp only [hc, if_true] at h
        cases hp : parseDotFloat s with
        | some q => rw [hp] at h; simp at h; subst h; rfl
        | none => rw [hp] at h; simp at h
      · simp only [hc, Bool.false_eq_true, if_false] at h
        simp at h
        subst h
        rfl
    · simp only [hd, Bool.false_eq_true, if_false] at h
      by_cases hc : containsDot s
      · simp at h; subst h; rfl
      · simp at h; subst h; rfl

lemma translateRow_length (tr : List (String × String)) (row : List String)
    (tvs : List Value) (h : translateRow tr row = .ok tvs) : tvs.length = row.length := by
  induction row generalizing tvs with
  | nil =>
    unfold translateRow at h
    simp at h
    subst h
    rfl
  | cons c cs ih =>
    unfold translateRow at h
    cases hc : translateCell tr c with
    | error e => rw [hc] at h; simp at h
    | ok v =>
      rw [hc] at h
      cases hrest : translateRow tr cs with
      | error e => rw [hrest] at h; simp at h
      | ok vs =>
        rw [hrest] at h
        simp at h
        subst h
        simp [ih vs hrest]

lemma translateRow_ne_none (tr : List (String × String)) (row : List String)
    (tvs : List Value) (h : translateRow tr row = .ok tvs) :
    ∀ v ∈ tvs, isNoneV v = false := by
  induction row generalizing tvs with
  | nil =>
    unfold translateRow at h
    simp at h
    subst h
    intro v hv
    cases hv
  | cons c cs ih =>
    unfold translateRow at h
    cases hc : translateCell tr c with
    | error e => rw [hc] at h; simp at h
    | ok v =>
      rw [hc] at h
      cases hrest : translateRow tr cs with
      | error e => rw [hrest] at h; simp at h
      | ok vs =>
        rw [hrest] at h
        simp at h
        subst h
        intro w hw
        rcases List.mem_cons.1 hw with rfl | hmem
        · exact translateCell_ne_none tr c w hc
        · exact ih vs hrest w hmem

/-! ### Helper lemmas: the appended `lat`/`lon` pair wins the dict -/

lemma zip_append_len {α β : Type} (l₁ : List α) (l₂ : List β) (l₃ : List α) (l₄ : List β)
    (h : l₁.length = l₂.length) :
    (l₁ ++ l₃).zip (l₂ ++ l₄) = l₁.zip l₂ ++ l₃.zip l₄ := by
  induction l₁ generalizing l₂ with
  | nil =>
    cases l₂ with
    | nil => rfl
    | cons y ys => cases h
  | cons x xs ih =>
    cases l₂ with
    | nil => cases h
    | cons y ys =>
      simp only [List.cons_append, List.zip_cons_cons]
      rw [ih ys (by simpa using h)]

lemma pyDictGet_zip_latlon (front : List String) (tvs : List Value) (va vb : Value)
    (hlen : front.length = tvs.length) :
    pyDictGet ((front ++ ["lat", "lon"]).zip (tvs ++ [va, vb])) "lat" = some va ∧
    pyDictGet ((front ++ ["lat", "lon"]).zip (tvs ++ [va, vb])) "lon" = some vb := by
  rw [zip_append_len front tvs ["lat", "lon"] [va, vb] hlen]
  constructor <;>
    rw [pyDictGet_append] <;>
    simp [pyDictGet]

/-! ### Helper lemmas: the whitelist projection keeps the dict's value -/

lemma pyDictGet_project (fs : List String) (d : List (String × Value)) (k : String) :
    pyDictGet (fs.filterMap fun f => (pyDictGet d f).map fun v => (f, v)) k =
      if k ∈ fs then pyDictGet d k else none := by
  induction fs with
  | nil => simp [pyDictGet]
  | cons f t ih =>
    simp only [List.filterMap_cons]
    cases hq : pyDictGet d f with
    | none =>
      simp only [Option.map_none']
      rw [ih]
      by_cases hk : k = f
      · subst hk
        rw [hq]
        by_cases hkt : k ∈ t <;> simp [hkt]
      · simp [hk]
    | some v =>
      simp only [Option.map_some']
      rw [pyDictGet_cons, ih]
      by_cases hk : k = f
      · subst hk
        rw [hq]
        by_cases hkt : k ∈ t <;> simp [hkt]
      · by_cases hkt : k ∈ t
        · simp [hk, Ne.symm hk, hkt]
          cases pyDictGet d k <;> rfl
        · simp [hk, Ne.symm hk, hkt]

/-! ### Helper lemmas: cache well-formedness through the geocoder -/

lemma cacheGet_wf (c : Cache) (k : String) (pr : GeoPair)
    (hwf : cacheWfB c = true) (h : cacheGet c k = some pr) :
    pr.1.isSome = pr.2.isSome := by
  induction c with
  | nil => cases h
  | cons e t ih =>
    rcases e with ⟨k', p'⟩
    simp only [cacheWfB, List.all_cons, Bool.and_eq_true] at hwf
    by_cases hk : k' = k
    · simp only [cacheGet, hk, if_true] at h
      cases h
      simpa using hwf.1
    · simp only [cacheGet, hk, if_false] at h
      exact ih (by simp [cacheWfB, hwf.2]) h

lemma respToPair_wf (resp : Option (ℚ × ℚ)) :
    (respToPair resp).1.isSome = (respToPair resp).2.isSome := by
  cases resp with
  | none => rfl
  | some pr => rfl

lemma geocode_ok_pair_wf (oracle : GeoOracle) (st : GeoState) (a p m : Value)
    (st' : GeoState) (pr : GeoPair)
    (hwf : cacheWfB st.cache = true)
    (h : geocode oracle st a p m = (st', .ok pr)) :
    pr.1.isSome = pr.2.isSome := by
  cases hg : cacheGet st.cache (cacheKey a p m) with
  | some pr' =>
    simp only [geocode, hg] at h
    simp at h
    rcases h with ⟨-, h2⟩
    subst h2
    exact cacheGet_wf st.cache (cacheKey a p m) _ hwf hg
  | none =>
    cases ho : oracle st.requests with
    | error e => simp only [geocode, hg, ho] at h; simp at h
    | ok resp =>
      simp only [geocode, hg, ho] at h
      simp at h
      rcases h with ⟨-, h2⟩
      subst h2
      exact respToPair_wf resp

lemma geocode_state_wf (oracle : GeoOracle) (st : GeoState) (a p m : Value)
    (hwf : cacheWfB st.cache = true) :
    cacheWfB (geocode oracle st a p m).1.cache = true := by
  cases hg : cacheGet st.cache (cacheKey a p m) with
  | some pr => simp only [geocode, hg]; exact hwf
  | none =>
    cases ho : oracle st.requests with
    | error e => simp only [geocode, hg, ho]; exact hwf
    | ok resp =>
      simp only [geocode, hg, ho, cacheSet, cacheWfB, List.all_cons, Bool.and_eq_true]
      refine ⟨by simpa using respToPair_wf resp, ?_⟩
      exact hwf

lemma addressFallback_cases (oracle : GeoOracle) (st : GeoState)
    (fields : List (String × Value)) :
    addressFallback oracle st fields = (st, .ok (none, none)) ∨
    addressFallback oracle st fields = (st, .error "KeyError") ∨
    ∃ a p m, addressFallback oracle st fields = geocode oracle st a p m := by
  simp only [addressFallback]
  split
  · left; rfl
  · split
    · right; left; rfl
    · split
      · left; rfl
      · split
        · right; left; rfl
        · split
          · left; rfl
          · split
            · right; left; rfl
            · split
              · left; rfl
              · right; right
                exact ⟨_, _, _, rfl⟩

lemma addressFallback_state_wf (oracle : GeoOracle) (st : GeoState)
    (fields : List (String × Value))
    (hwf : cacheWfB st.cache = true) :
    cacheWfB (addressFallback oracle st fields).1.cache = true := by
  rcases addressFallback_cases oracle st fields with h | h | ⟨a, p, m, h⟩ <;> rw [h]
  · exact hwf
  · exact hwf
  · exact geocode_state_wf oracle st a p m hwf

lemma addressFallback_ok_pair_wf (oracle : GeoOracle) (st st' : GeoState)
    (fields : List (String × Value)) (ola olo : Option ℚ)
    (hwf : cacheWfB st.cache = true)
    (h : addressFallback oracle st fields = (st', .ok (ola, olo))) :
    ola.isSome = olo.isSome := by
  rcases addressFallback_cases oracle st fields with hc | hc | ⟨a, p, m, hc⟩ <;>
      rw [hc] at h
  · simp at h
    rcases h with ⟨-, h1, h2⟩
    subst h1
    subst h2
    rfl
  · simp at h
  · exact geocode_ok_pair_wf oracle st a p m st' (ola, olo) hwf h

lemma isNoneV_optValue (o : Option ℚ) : isNoneV (optValue o) = !o.isSome := by
  cases o <;> rfl

lemma facility_pair_ok (front : List String) (tvs : List Value) (va vb : Value)
    (hlen2 : front.length = tvs.length)
    (hpair : isNoneV va = isNoneV vb) :
    facilityLatLonOk (projectFacility ((front ++ ["lat", "lon"]).zip (tvs ++ [va, vb]))) =
      true := by
  have hz := pyDictGet_zip_latlon front tvs va vb hlen2
  unfold facilityLatLonOk projectFacility
  rw [pyDictGet_project, pyDictGet_project,
    if_pos (show ("lat" : String) ∈ REQUIRED_FIELDS from by decide),
    if_pos (show ("lon" : String) ∈ REQUIRED_FIELDS from by decide), hz.1, hz.2]
  simp [mixedPair, hpair]

lemma processRow_state_wf (tf : ℚ → ℚ → ℚ × ℚ) (tr : List (String × String))
    (oracle : GeoOracle) (ks : List String) (st : GeoState) (row : List String)
    (hwf : cacheWfB st.cache = true) :
    cacheWfB (processRow tf tr oracle ks st row).1.cache = true := by
  cases htr : translateRow tr row with
  | error e => simp [processRow, htr]; exact hwf
  | ok tvs =>
    cases hcoord : (match vLast2 tvs with
        | some (a, b) => isNumValue a && isNumValue b
        | none => false) with
    | false =>
      rcases haf : addressFallback oracle st (ks.dropLast.dropLast.zip tvs) with ⟨st'', res⟩
      have hst := addressFallback_state_wf oracle st (ks.dropLast.dropLast.zip tvs) hwf
      rw [haf] at hst
      cases res with
      | error e => simp [processRow, htr, hcoord, haf]; exact hst
      | ok pr =>
        rcases pr with ⟨ola, olo⟩
        simp [processRow, htr, hcoord, haf]
        exact hst
    | true =>
      cases hv : vLast2 tvs with
      | none => rw [hv] at hcoord; simp at hcoord
      | some ab =>
        rcases ab with ⟨a, b⟩
        rw [hv] at hcoord
        simp at hcoord
        rcases htf : tf (valueRat a) (valueRat b) with ⟨la, lo⟩
        simp [processRow, htr, hv, hcoord, htf]
        exact hwf

lemma processRow_ok_facility (tf : ℚ → ℚ → ℚ × ℚ) (tr : List (String × String))
    (oracle : GeoOracle) (front : List String) (st st' : GeoState)
    (row : List String) (dct : List (String × Value))
    (hwf : cacheWfB st.cache = true)
    (hlen : front.length = row.length)
    (h : processRow tf tr oracle (front ++ ["lat", "lon"]) st row = (st', .ok dct)) :
    facilityLatLonOk (projectFacility dct) = true := by
  cases htr : translateRow tr row with
  | error e => simp [processRow, htr] at h
  | ok tvs =>
    have hlen2 : front.length = tvs.length := by
      rw [hlen, ← translateRow_length tr row tvs htr]
    cases hcoord : (match vLast2 tvs with
        | some (a, b) => isNumValue a && isNumValue b
        | none => false) with
    | false =>
      have hfields : (front ++ ["lat", "lon"]).dropLast.dropLast = front := by simp
      rcases haf : addressFallback oracle st (front.zip tvs) with ⟨st'', res⟩
      cases res with
      | error e => simp [processRow, htr, hcoord, hfields, haf] at h
      | ok pr =>
        rcases pr with ⟨ola, olo⟩
        have hpair := addressFallback_ok_pair_wf oracle st st''
          (front.zip tvs) ola olo hwf haf
        simp only [processRow, htr, hcoord, hfields, haf, Bool.false_eq_true, if_false,
          Prod.mk.injEq, Except.ok.injEq] at h
        rcases h with ⟨-, hd⟩
        subst hd
        refine facility_pair_ok front tvs _ _ hlen2 ?_
        simp [isNoneV_optValue, hpair]
    | true =>
      cases hv : vLast2 tvs with
      | none => rw [hv] at hcoord; simp at hcoord
      | some ab =>
        rcases ab with ⟨a, b⟩
        rw [hv] at hcoord
        simp at hcoord
        rcases htf : tf (valueRat a) (valueRat b) with ⟨la, lo⟩
        simp only [processRow, htr, hv, hcoord, Bool.and_self, if_true, htf,
          Prod.mk.injEq, Except.ok.injEq] at h
        rcases h with ⟨-, hd⟩
        subst hd
        exact facility_pair_ok front tvs _ _ hlen2 rfl

lemma importLoop_latLon (tf : ℚ → ℚ → ℚ × ℚ) (tr : List (String × String))
    (oracle : GeoOracle) :
    ∀ (rows : List (List String)) (keys? : Option (List String)) (st : GeoState)
      (acc facs : List (List (String × Value))) (st' : GeoState),
    rowsShaped (keys?.map List.length) rows = true →
    (keys? = none ∨ ∃ hdr, keys? = some (hdr ++ ["lat", "lon"])) →
    cacheWfB st.cache = true →
    (∀ f ∈ acc, facilityLatLonOk f = true) →
    importLoop tf tr oracle rows keys? st acc = .ok (facs, st') →
    ∀ f ∈ facs, facilityLatLonOk f = true := by
  intro rows
  induction rows with
  | nil =>
    intro keys? st acc facs st' hsh hks hwf hacc hrun
    simp [importLoop] at hrun
    rcases hrun with ⟨h1, -⟩
    subst h1
    exact hacc
  | cons row rest ih =>
    intro keys? st acc facs st' hsh hks hwf hacc hrun
    cases row with
    | nil => simp [importLoop] at hrun
    | cons c cs =>
      by_cases hc : containsSub "xtf_id" c = true
      · have hrun' : importLoop tf tr oracle rest (some ((c :: cs) ++ ["lat", "lon"]))
            st acc = .ok (facs, st') := by
          simpa [importLoop, hc] using hrun
        have hsh' : rowsShaped (some ((c :: cs).length + 2)) rest = true := by
          simpa [rowsShaped, hc] using hsh
        refine ih (some ((c :: cs) ++ ["lat", "lon"])) st acc facs st' ?_
          (Or.inr ⟨c :: cs, rfl⟩) hwf hacc hrun'
        simpa [List.length_append] using hsh'
      · have hc' : containsSub "xtf_id" c = false := by
          cases hb : containsSub "xtf_id" c
          · rfl
          · exact absurd hb hc
        cases keys? with
        | none => simp [importLoop, hc'] at hrun
        | some ks =>
          rcases hks with hk0 | ⟨hdr, hkeq⟩
          · simp at hk0
          · have hkeq' : ks = hdr ++ ["lat", "lon"] := by simpa using hkeq
            subst hkeq'
            have hsh2 : ((c :: cs).length + 2 == (hdr ++ ["lat", "lon"]).length) = true ∧
                rowsShaped (some (hdr ++ ["lat", "lon"]).length) rest = true := by
              have := hsh
              simp only [rowsShaped, hc', Bool.false_eq_true, if_false, Option.map_some',
                Bool.and_eq_true] at this
              exact this
            have hlen : hdr.length = (c :: cs).length := by
              have h1 : (c :: cs).length + 2 = (hdr ++ ["lat", "lon"]).length := by
                simpa using hsh2.1
              simp [List.length_append] at h1 ⊢
              omega
            rcases hpr : processRow tf tr oracle (hdr ++ ["lat", "lon"]) st (c :: cs)
              with ⟨st'', res⟩
            have hwf'' : cacheWfB st''.cache = true := by
              have hh := processRow_state_wf tf tr oracle (hdr ++ ["lat", "lon"]) st
                (c :: cs) hwf
              rw [hpr] at hh
              exact hh
            cases res with
            | error e =>
              have hrun' : importLoop tf tr oracle rest (some (hdr ++ ["lat", "lon"]))
                  st'' acc = .ok (facs, st') := by
                simpa [importLoop, hc', hpr] using hrun
              exact ih (some (hdr ++ ["lat", "lon"])) st'' acc facs st' hsh2.2
                (Or.inr ⟨hdr, rfl⟩) hwf'' hacc hrun'
            | ok d =>
              have hrun' : importLoop tf tr oracle rest (some (hdr ++ ["lat", "lon"]))
                  st'' (acc ++ [projectFacility d]) = .ok (facs, st') := by
                simpa [importLoop, hc', hpr] using hrun
              refine ih (some (hdr ++ ["lat", "lon"])) st'' (acc ++ [projectFacility d])
                facs st' hsh2.2 (Or.inr ⟨hdr, rfl⟩) hwf'' ?_ hrun'
              intro f hf
              rcases List.mem_append.1 hf with hmem | hmem
              · exact hacc f hmem
              · have hfe : f = projectFacility d := by simpa using hmem
                subst hfe
                exact processRow_ok_facility tf tr oracle hdr st st'' (c :: cs) d hwf
                  hlen hpr

/-- C2 (counterexample): the invariant fails over an arbitrary loaded
cache state.  `Geocoder.load` accepts the cache line
`"Haupt 1|3000|Bern\t47\tNone"`, whose entry has a non-null `lat` and a
null `lon`; a run that hits this entry emits a record with `lat = 47`
and `lon = None` — exactly one of the two null.  Independently, even with
a well-formed cache, a data row one cell shorter than a header that
contains a column literally named `lon` yields a record with `lat = None`
and a non-null `lon` (the `dict(zip(keys, values))` misalignment). -/
theorem c2_counterexample :
    loadCache ["Haupt 1|3000|Bern\t47\tNone"] =
      .ok [("Haupt 1|3000|Bern", (some (mkRat 47 1), none))] ∧
    importFacilities (fun a b => (a, b)) [] (fun _ => .error ())
      [("Haupt 1|3000|Bern", (some (mkRat 47 1), none))]
      [["xtf_id", "Address", "PostCode", "Municipality", "A", "B"],
       ["id1", "Haupt 1", "3000", "Bern", "x", "y"]] =
      .ok ([[("Municipality", .vStr "Bern"), ("lat", .vFloat (mkRat 47 1)), ("lon", .vNone)]],
        ⟨[("Haupt 1|3000|Bern", (some (mkRat 47 1), none))], 0⟩) ∧
    facilityLatLonOk [("Municipality", .vStr "Bern"), ("lat", .vFloat (mkRat 47 1)),
      ("lon", .vNone)] = false ∧
    importFacilities (fun a b => (a, b)) [] (fun _ => .ok none) []
      [["xtf_id", "lon", "B", "C"], ["r1", "r2", "r3"]] =
      .ok ([[("lat", .vNone), ("lon", .vStr "r2")]], ⟨[], 0⟩) ∧
    facilityLatLonOk [("lat", .vNone), ("lon", .vStr "r2")] = false :=
  ⟨by decide, by decide, by decide, by decide, by decide⟩

/-- C2 (amended): provided every entry of the loaded geocoding cache has
its `lat` and `lon` both null or both non-null, and every data row
matches the current header's arity (with no empty rows or data before a
header), every record emitted by `import_facilities` has `lat` and `lon`
values that are both null or both non-null — never exactly one null. -/
theorem c2_latlon_exclusive (tf : ℚ → ℚ → ℚ × ℚ) (tr : List (String × String))
    (oracle : GeoOracle) (c0 : Cache) (rows : List (List String))
    (facs : List (List (String × Value))) (st' : GeoState)
    (hshape : rowsShaped none rows = true)
    (hwf : cacheWfB c0 = true)
    (hrun : importFacilities tf tr oracle c0 rows = .ok (facs, st')) :
    ∀ f ∈ facs, facilityLatLonOk f = true :=
  importLoop_latLon tf tr oracle rows none ⟨c0, 0⟩ [] facs st' hshape (Or.inl rfl) hwf
    (by intro f hf; cases hf) hrun

/-- Witness for C2: a concrete well-shaped run — cached-free, coordinates
from the data — whose record satisfies the exclusivity property. -/
theorem c2_witness :
    facilityLatLonOk [("Municipality", Value.vStr "Bern"),
      ("lat", Value.vFloat (mkRat 2600000 1)), ("lon", Value.vFloat (mkRat 1200000 1))] =
      true :=
  c2_latlon_exclusive (fun a b => (a, b)) [] (fun _ => .ok none) []
    [["xtf_id", "Address", "PostCode", "Municipality", "A", "B"],
     ["id2", "x", "3000", "Bern", "2600000", "1200000"]]
    [[("Municipality", Value.vStr "Bern"), ("lat", Value.vFloat (mkRat 2600000 1)),
      ("lon", Value.vFloat (mkRat 1200000 1))]] ⟨[], 0⟩
    (by decide) (by decide) (by decide)
    [("Municipality", Value.vStr "Bern"), ("lat", Value.vFloat (mkRat 2600000 1)),
      ("lon", Value.vFloat (mkRat 1200000 1))] (by decide)
